import Mathlib

/-!
Verification of cf-mgmt: the account directory (package `uaa`) and the organization
reconciler (package `organization`).

Shallow embedding of `uaa/uaa.go` and `organization/orgs.go`.

* Collaborators (HTTP transport, directory provider, account provisioning, JSON decoding)
  are records of handler functions over an abstract world state `σ`.
* Every function that talks to a collaborator threads the world state and a call log, so
  that statements about which calls are issued, and in which order, can be made.
* Go `error` values are `Option GoError` (`none` is `nil`).
* Go maps with string keys are functions `String → Option V`.
-/

/-- Go error values. `errorsNew msg` is a value built by `errors.New(msg)` inside this
repository; `collaborator d` is an error handed back by a collaborator (transport, decoder,
directory provider, account provisioning). The two never coincide, as `errors.New` allocates
a fresh value. -/
inductive GoError where
  | errorsNew (msg : String)
  | collaborator (detail : String)
  deriving DecidableEq, Repr

/-- Go `map[string]V`: a finite partial function from keys to values. -/
abbrev GoMap (V : Type) := String → Option V

/-- The result of `make(map[string]V)`. -/
def GoMap.empty {V : Type} : GoMap V := fun _ => none

/-- The assignment `m[k] = v`. -/
def GoMap.set {V : Type} (m : GoMap V) (k : String) (v : V) : GoMap V :=
  fun x => if x = k then some v else m x

/-- Lowercasing of the letters `A`..`Z`. On strings that hold ASCII characters only this is
what `strings.ToLower` of the Go standard library computes; on other strings it is not
(`strings.ToLower` also lowercases letters outside ASCII), so it stands for `strings.ToLower`
on ASCII strings only. The general statements take the lowercasing function as a
parameter. -/
def asciiToLower (s : String) : String :=
  String.mk (s.data.map fun c => if 65 ≤ c.toNat ∧ c.toNat ≤ 90 then Char.ofNat (c.toNat + 32) else c)

/-- Whether a string holds ASCII characters only. -/
def isASCII (s : String) : Bool :=
  s.data.all fun c => c.toNat < 128

namespace uaa

/-- The Go struct `User`. -/
structure User where
  ID : String
  UserName : String
  Origin : String
  deriving DecidableEq, Repr

/-- The Go struct `UserList`. -/
structure UserList where
  Users : List User
  StartIndex : Int
  ItemsPerPage : Int
  TotalResults : Int
  deriving DecidableEq, Repr

/-- The Go interface `Pagination`: the two methods, on a page type `P`. `AddInstances`
mutates its receiver; here it returns the receiver after the call. -/
structure Pagination (P : Type) where
  GetNextURL : P → String → String
  AddInstances : P → P → P

/-- The collaborator `http2.Manager`: `Get(url, token, target)` decodes the response into
`target` and returns an error or nil; `Post(url, token, payload)` returns the body or an
error. Both may change the state of the world. -/
structure HttpManager (σ P : Type) where
  Get : σ → String → String → P → Except String P × σ
  Post : σ → String → String → String → Except String String × σ

/-- The calls that `listResources` and `CreateExternalUser` issue, as recorded in the log. -/
inductive Call (P : Type) where
  | Get (url token : String) (target : P)
  | Post (url token payload : String)
  | createInstance
  | AddInstances (page : P)
  deriving DecidableEq, Repr

/-- The Go struct `DefaultUAAManager`. -/
structure DefaultUAAManager (σ P : Type) where
  Host : String
  Token : String
  Http : HttpManager σ P
  Peek : Bool

/-- The world a method runs in: the state of the remote side and the log of calls so far. -/
structure World (σ P : Type) where
  state : σ
  log : List (Call P)

/-- The `for nextURL != ""` loop of `listResources`. The loop has no bound in the source;
here it runs at most `fuel` iterations and `none` means the fuel ran out. -/
def listResources.loop {σ P : Type} (m : DefaultUAAManager σ P) (pg : Pagination P)
    (url : String) (createInstance : Unit → P) :
    Nat → P → String → World σ P → Option (Option GoError × P × World σ P)
  | 0, target, nextURL, w => if nextURL = "" then some (none, target, w) else none
  | fuel + 1, target, nextURL, w =>
    if nextURL = "" then some (none, target, w)
    else
      let tempTarget := createInstance ()
      match m.Http.Get w.state nextURL m.Token tempTarget with
      | (.error e, s) =>
        some (some (.collaborator e), target,
          ⟨s, w.log ++ [.createInstance, .Get nextURL m.Token tempTarget]⟩)
      | (.ok page, s) =>
        listResources.loop m pg url createInstance fuel (pg.AddInstances target page)
          (pg.GetNextURL page url)
          ⟨s, w.log ++ [.createInstance, .Get nextURL m.Token tempTarget, .AddInstances page]⟩

/-- The Go function `func (m *DefaultUAAManager) listResources(url, target, createInstance) error`.
Returns the error, the target after the call, and the world. -/
def listResources {σ P : Type} (m : DefaultUAAManager σ P) (pg : Pagination P) (fuel : Nat)
    (url : String) (target : P) (createInstance : Unit → P) (w : World σ P) :
    Option (Option GoError × P × World σ P) :=
  match m.Http.Get w.state url m.Token target with
  | (.error e, s) => some (some (.collaborator e), target, ⟨s, w.log ++ [.Get url m.Token target]⟩)
  | (.ok page, s) =>
    if pg.GetNextURL page url = "" then some (none, page, ⟨s, w.log ++ [.Get url m.Token target]⟩)
    else
      listResources.loop m pg url createInstance fuel page (pg.GetNextURL page url)
        ⟨s, w.log ++ [.Get url m.Token target]⟩

/-- A chain of pages served from state `s`: `p` links to the first page of `rest`, each page
of `rest` links to the next one, every GET of a link (decoded into the fresh instance)
succeeds, and the last page has the empty link. -/
def IsChain {σ P : Type} (m : DefaultUAAManager σ P) (pg : Pagination P) (url : String)
    (fresh : P) : σ → P → List P → Prop
  | _, p, [] => pg.GetNextURL p url = ""
  | s, p, q :: rest =>
    pg.GetNextURL p url ≠ "" ∧
    (m.Http.Get s (pg.GetNextURL p url) m.Token fresh).1 = .ok q ∧
    IsChain m pg url fresh (m.Http.Get s (pg.GetNextURL p url) m.Token fresh).2 q rest

/-- The state of the remote side after the GETs of a chain. -/
def chainState {σ P : Type} (m : DefaultUAAManager σ P) (pg : Pagination P) (url : String)
    (fresh : P) : σ → P → List P → σ
  | s, _, [] => s
  | s, p, q :: rest =>
    chainState m pg url fresh (m.Http.Get s (pg.GetNextURL p url) m.Token fresh).2 q rest

/-- The calls expected for the continuation pages of a chain: per page one fresh instance,
one GET of the link of the page before it, one merge. -/
def chainLog {P : Type} (token : String) (pg : Pagination P) (url : String) (fresh : P) :
    P → List P → List (Call P)
  | _, [] => []
  | p, q :: rest =>
    [.createInstance, .Get (pg.GetNextURL p url) token fresh, .AddInstances q]
      ++ chainLog token pg url fresh q rest

/-- The URL of a logged GET. -/
def Call.getURL? {P : Type} : Call P → Option String
  | .Get url _ _ => some url
  | _ => none

/-- The page of a logged merge. -/
def Call.added? {P : Type} : Call P → Option P
  | .AddInstances page => some page
  | _ => none

/-- The instance a logged GET decodes into. -/
def Call.getTarget? {P : Type} : Call P → Option P
  | .Get _ _ target => some target
  | _ => none

end uaa

namespace strings

/-- The function `strings.HasPrefix`, on the characters of the two strings. -/
def HasPrefix : List Char → List Char → Bool
  | _, [] => true
  | [], _ :: _ => false
  | c :: cs, d :: ds => c == d && HasPrefix cs ds

/-- The scan of `strings.Replace` for a non-empty `old`: left to right, an occurrence of
`old` at the current position is replaced by `new` and the scan goes on behind it, any other
character is copied. `limit` is the number of replacements still allowed (`none`: no limit),
`skip` the number of characters of a matched occurrence still to pass over. -/
def Replace.scan (old new : List Char) : Option Nat → Nat → List Char → List Char
  | _, _, [] => []
  | limit, skip + 1, _ :: cs => Replace.scan old new limit skip cs
  | limit, 0, c :: cs =>
    if limit = some 0 then c :: cs
    else if HasPrefix (c :: cs) old then
      new ++ Replace.scan old new (limit.map fun k => k - 1) (old.length - 1) cs
    else c :: Replace.scan old new limit 0 cs

/-- The case of an empty `old` of `strings.Replace`: `new` is put in front of every
character and at the end, as long as replacements are allowed. -/
def Replace.between (new : List Char) : Option Nat → List Char → List Char
  | limit, [] => if limit = some 0 then [] else new
  | limit, c :: cs =>
    if limit = some 0 then c :: cs
    else new ++ c :: Replace.between new (limit.map fun k => k - 1) cs

/-- The function `strings.Replace(s, old, new, n)` of the Go standard library: the first `n`
non-overlapping instances of `old` replaced by `new`, all of them when `n < 0`. -/
def Replace (s old new : String) (n : Int) : String :=
  if old = new ∨ n = 0 then s
  else
    let limit : Option Nat := if n < 0 then none else some n.toNat
    if old.data = [] then String.mk (Replace.between new.data limit s.data)
    else String.mk (Replace.scan old.data new.data limit 0 s.data)

end strings

namespace uaa

/-- The unescaping of a distinguished name in the words of the specification: every
backslash followed by a comma becomes a comma, every other character stays. -/
def unescapeCommas : List Char → List Char
  | [] => []
  | [c] => [c]
  | c :: d :: rest =>
    if c = '\\' ∧ d = ',' then ',' :: unescapeCommas rest
    else c :: unescapeCommas (d :: rest)

/-- The payload of the account creation request, as `fmt.Sprintf` builds it. -/
def CreateExternalUser.payload (userName userEmail externalID origin : String) : String :=
  "\x7b\"userName\":\"" ++ userName ++ "\",\"emails\":[\x7b\"value\":\"" ++ userEmail
    ++ "\"\x7d],\"origin\":\"" ++ origin ++ "\",\"externalId\":\""
    ++ strings.Replace externalID "\\," "," (-1) ++ "\"\x7d"

/-- The Go function `func (m *DefaultUAAManager) CreateExternalUser(userName, userEmail, externalID, origin)`. -/
def CreateExternalUser {σ P : Type} (m : DefaultUAAManager σ P)
    (userName userEmail externalID origin : String) (w : World σ P) :
    Option GoError × World σ P :=
  if userName = "" ∨ userEmail = "" ∨ externalID = "" then
    let msg := "skipping user as missing name[" ++ userName ++ "], email[" ++ userEmail
      ++ "] or externalID[" ++ externalID ++ "]"
    (some (.errorsNew msg), w)
  else if m.Peek then (none, w)
  else
    let url := m.Host ++ "/Users"
    let payload := CreateExternalUser.payload userName userEmail externalID origin
    match m.Http.Post w.state url m.Token payload with
    | (.error e, s) => (some (.collaborator e), ⟨s, w.log ++ [.Post url m.Token payload]⟩)
    | (.ok _, s) => (none, ⟨s, w.log ++ [.Post url m.Token payload]⟩)

/-- The Go function `func (m *DefaultUAAManager) getUsers() (*UserList, error)`. The methods of `UserList`
that make it a `Pagination`, and `NewUserListResources`, are parameters. -/
def getUsers {σ : Type} (m : DefaultUAAManager σ UserList) (pg : Pagination UserList)
    (NewUserListResources : Unit → UserList) (fuel : Nat) (w : World σ UserList) :
    Option (Except GoError UserList × World σ UserList) :=
  let url := m.Host ++ "/Users?count=5000"
  let userList : UserList := ⟨[], 0, 0, 0⟩
  match listResources m pg fuel url userList NewUserListResources w with
  | none => none
  | some (some err, _, w1) => some (.error err, w1)
  | some (none, userList, w1) => some (.ok userList, w1)

/-- The `for _, user := range usersList.Users` loop of `ListUsers`, over the lowercasing
function `strings.ToLower`. -/
def ListUsers.index (ToLower : String → String) (users : List User) : GoMap String :=
  users.foldl (fun userIDMap user => userIDMap.set (ToLower user.UserName) user.ID) GoMap.empty

/-- The Go function `func (m *DefaultUAAManager) ListUsers() (map[string]string, error)`. -/
def ListUsers {σ : Type} (ToLower : String → String) (m : DefaultUAAManager σ UserList)
    (pg : Pagination UserList) (NewUserListResources : Unit → UserList) (fuel : Nat)
    (w : World σ UserList) : Option (Except GoError (GoMap String) × World σ UserList) :=
  match getUsers m pg NewUserListResources fuel w with
  | none => none
  | some (.error err, w1) => some (.error err, w1)
  | some (.ok usersList, w1) => some (.ok (ListUsers.index ToLower usersList.Users), w1)

/-- The `for _, user := range userList.Users` loop of `UsersByID`. -/
def UsersByID.index (ToLower : String → String) (users : List User) : GoMap User :=
  users.foldl (fun userIDMap user => userIDMap.set (ToLower user.UserName) user) GoMap.empty

/-- The Go function `func (m *DefaultUAAManager) UsersByID() (userIDMap map[string]User, err error)`. -/
def UsersByID {σ : Type} (ToLower : String → String) (m : DefaultUAAManager σ UserList)
    (pg : Pagination UserList) (NewUserListResources : Unit → UserList) (fuel : Nat)
    (w : World σ UserList) : Option (Except GoError (GoMap User) × World σ UserList) :=
  match getUsers m pg NewUserListResources fuel w with
  | none => none
  | some (.error err, w1) => some (.error err, w1)
  | some (.ok userList, w1) => some (.ok (UsersByID.index ToLower userList.Users), w1)

end uaa

namespace uaa

/-- An example of the pagination methods of `UserList`: the link to the next page is derived
from the start index and the total, the merge appends the users. -/
def examplePagination : Pagination UserList where
  GetNextURL := fun p url =>
    if p.StartIndex + p.ItemsPerPage ≤ p.TotalResults then
      (if p.StartIndex = 1 then url ++ "&startIndex=3" else url ++ "&startIndex=5")
    else ""
  AddInstances := fun t p => { t with Users := t.Users ++ p.Users }

/-- First page of the example: two of five users. -/
def examplePage1 : UserList := ⟨[⟨"1", "Alice", "uaa"⟩, ⟨"2", "bob", "ldap"⟩], 1, 2, 5⟩

/-- Second page of the example. -/
def examplePage2 : UserList := ⟨[⟨"3", "alice", "ldap"⟩, ⟨"4", "Carol", "ldap"⟩], 3, 2, 5⟩

/-- Third and last page of the example: the fifth user. -/
def examplePage3 : UserList := ⟨[⟨"5", "dave", "ldap"⟩], 5, 2, 5⟩

/-- An example transport: three pages of users behind three URLs, and a `Post` that
accepts everything. -/
def exampleHttp : HttpManager Unit UserList where
  Get := fun s url _ _ =>
    if url = "https://uaa.example.com/Users?count=5000" then (.ok examplePage1, s)
    else if url = "https://uaa.example.com/Users?count=5000&startIndex=3" then
      (.ok examplePage2, s)
    else if url = "https://uaa.example.com/Users?count=5000&startIndex=5" then
      (.ok examplePage3, s)
    else (.error "not found", s)
  Post := fun s _ _ _ => (.ok "", s)

/-- An example transport whose state is the list of the POST requests the remote side has
received, as URL, token and payload, in order; a GET finds nothing. -/
def recordingHttp : HttpManager (List (String × String × String)) UserList where
  Get := fun s _ _ _ => (.error "not found", s)
  Post := fun s url token payload => (.ok "", s ++ [(url, token, payload)])

/-- A manager over the recording transport, with the dry-run flag off. -/
def recordingUAAManager : DefaultUAAManager (List (String × String × String)) UserList :=
  ⟨"https://uaa.example.com", "token", recordingHttp, false⟩

/-- The manager of the examples, for either value of the dry-run flag. -/
def exampleUAAManager (peek : Bool) : DefaultUAAManager Unit UserList :=
  ⟨"https://uaa.example.com", "token", exampleHttp, peek⟩

end uaa

namespace ldap

/-- Modelled from the spec: the member record of the directory provider (`ldap.User`, declared
outside the two source files), `{ userID, email, userDN }`. -/
structure User where
  UserID : String
  Email : String
  UserDN : String
  deriving DecidableEq, Repr

end ldap

namespace organization

/-- Modelled from the spec: the `metadata` part of an organization resource, carrying the
guid (the type is declared outside the two source files). -/
structure MetaData where
  GUID : String
  deriving DecidableEq, Repr

/-- Modelled from the spec: the `entity` part of an organization resource, carrying the
name (the type is declared outside the two source files). -/
structure Entity where
  Name : String
  deriving DecidableEq, Repr

/-- Modelled from the spec: an organization resource `{ metadata.guid, entity.name }` (the
type `Resource` is declared outside the two source files). -/
structure Resource where
  MetaData : organization.MetaData
  Entity : organization.Entity
  deriving DecidableEq, Repr

/-- The zero value of `Resource`, which a Go variable `var org Resource` holds. -/
def Resource.zero : Resource := ⟨⟨""⟩, ⟨""⟩⟩

/-- Modelled from the spec: the configuration file enumerating the organization names to
ensure exist (the type `InputOrgs` is declared outside the two source files). -/
structure InputOrgs where
  Orgs : List String
  deriving DecidableEq, Repr

/-- Modelled from the spec: the fields of `DefaultOrgManager` that `orgs.go` reads and
writes (the type is declared outside the two source files). -/
structure DefaultOrgManager where
  SysDomain : String
  Token : String
  UAACToken : String
  Orgs : List Resource
  deriving DecidableEq, Repr

/-- The calls to collaborators that the functions of `orgs.go` issue, as recorded in the
log. -/
inductive Call where
  | GetUserIDs (groupName : String)
  | ListUsers
  | CreateUser (userID email userDN : String)
  | HTTPGet (url token : String)
  | HTTPPut (url token body : String)
  | HTTPPost (url token body : String)
  | LoadFile (path : String)
  deriving DecidableEq, Repr

/-- The collaborators of `orgs.go`, over a world state `σ`: the directory provider
(`ldap.Manager.GetUserIDs`), the account manager (`uaac.Manager.ListUsers` and
`CreateUser`), the utilities manager (`HTTPGet`, `HTTPPut`, `HTTPPost`, `LoadFile`) and
`json.Unmarshal` into `Resources`. An error is reported with its detail. `Unmarshal` stands
for the decoding of a body into a `Resources` value or its failure; the body `null`, which
leaves the pointer that `fetchOrgs` then dereferences nil, is outside of what it covers. -/
structure Collaborators (σ : Type) where
  GetUserIDs : σ → String → Except String (List ldap.User) × σ
  ListUsers : σ → Except String (GoMap String) × σ
  CreateUser : σ → String → String → String → Option String × σ
  HTTPGet : σ → String → String → Except String String × σ
  HTTPPut : σ → String → String → String → Option String × σ
  HTTPPost : σ → String → String → String → Except String String × σ
  LoadFile : σ → String → Except String InputOrgs × σ
  Unmarshal : String → Except String (List Resource)

/-- What a method of `DefaultOrgManager` runs on: the manager (its `Orgs` field is
assigned by `fetchOrgs`), the state of the world, and the log of calls so far. -/
structure Run (σ : Type) where
  m : DefaultOrgManager
  world : σ
  log : List Call

/-- The URL `https://api.{SysDomain}/v2/organizations`. -/
def orgsURL (m : DefaultOrgManager) : String :=
  "https://api." ++ m.SysDomain ++ "/v2/organizations"

/-- The body `{"username": "..."}` of the two PUT requests. -/
def usernameBody (userName : String) : String :=
  "\x7b\"username\": \"" ++ userName ++ "\"\x7d"

/-- The Go function `func (m *DefaultOrgManager) fetchOrgs() (err error)`. -/
def fetchOrgs {σ : Type} (c : Collaborators σ) (r : Run σ) : Option GoError × Run σ :=
  let url := orgsURL r.m
  match c.HTTPGet r.world url r.m.Token with
  | (.error e, w) =>
    (some (.collaborator e), { r with world := w, log := r.log ++ [.HTTPGet url r.m.Token] })
  | (.ok body, w) =>
    match c.Unmarshal body with
    | .error e =>
      (some (.collaborator e), { r with world := w, log := r.log ++ [.HTTPGet url r.m.Token] })
    | .ok resources =>
      (none, { m := { r.m with Orgs := resources }, world := w,
               log := r.log ++ [.HTTPGet url r.m.Token] })

/-- The `for _, theOrg := range m.Orgs` loop of `FindOrg`: the first organization with the
name, and the zero value of the named result `org` when the loop ends without a match. -/
def FindOrg.scan : List Resource → String → Resource
  | [], _ => Resource.zero
  | theOrg :: rest, orgName =>
    if theOrg.Entity.Name = orgName then theOrg else FindOrg.scan rest orgName

/-- The Go function `func (m *DefaultOrgManager) FindOrg(orgName string) (org Resource, err error)`. -/
def FindOrg {σ : Type} (c : Collaborators σ) (orgName : String) (r : Run σ) :
    Resource × Option GoError × Run σ :=
  match fetchOrgs c r with
  | (some err, r1) => (Resource.zero, some err, r1)
  | (none, r1) => (FindOrg.scan r1.m.Orgs orgName, none, r1)

/-- The Go function `func (m *DefaultOrgManager) AddUser(orgName, userName string) (err error)`. -/
def AddUser {σ : Type} (c : Collaborators σ) (orgName userName : String) (r : Run σ) :
    Option GoError × Run σ :=
  match FindOrg c orgName r with
  | (_, some err, r1) => (some err, r1)
  | (org, none, r1) =>
    let url := "https://api." ++ r1.m.SysDomain ++ "/v2/organizations/" ++ org.MetaData.GUID
      ++ "/users"
    let sendString := usernameBody userName
    match c.HTTPPut r1.world url r1.m.Token sendString with
    | (err, w) =>
      (err.map .collaborator,
        { r1 with world := w, log := r1.log ++ [.HTTPPut url r1.m.Token sendString] })

/-- The Go function `func (m *DefaultOrgManager) doesOrgExist(orgName string) (result bool)`. -/
def doesOrgExist : List Resource → String → Bool
  | [], _ => false
  | org :: rest, orgName => if org.Entity.Name = orgName then true else doesOrgExist rest orgName

/-- The Go function `func (m *DefaultOrgManager) CreateOrg(orgName string) (org Resource, err error)`. -/
def CreateOrg {σ : Type} (c : Collaborators σ) (orgName : String) (r : Run σ) :
    Resource × Option GoError × Run σ :=
  let url := orgsURL r.m
  let sendString := "\x7b\"name\":\"" ++ orgName ++ "\"\x7d"
  match c.HTTPPost r.world url r.m.Token sendString with
  | (.error e, w) =>
    (Resource.zero, some (.collaborator e),
      { r with world := w, log := r.log ++ [.HTTPPost url r.m.Token sendString] })
  | (.ok _, w) =>
    FindOrg c orgName { r with world := w, log := r.log ++ [.HTTPPost url r.m.Token sendString] }

/-- The `for _, orgName := range input.Orgs` loop of `CreateOrgs`. What `CreateOrg` returns
is not assigned to anything; the loop goes on with the manager and world it leaves. -/
def CreateOrgs.loop {σ : Type} (c : Collaborators σ) : List String → Run σ → Run σ
  | [], r => r
  | orgName :: rest, r =>
    if doesOrgExist r.m.Orgs orgName then CreateOrgs.loop c rest r
    else CreateOrgs.loop c rest (CreateOrg c orgName r).2.2

/-- The Go function `func (m *DefaultOrgManager) CreateOrgs(configDir string) (err error)`. -/
def CreateOrgs {σ : Type} (c : Collaborators σ) (configDir : String) (r : Run σ) :
    Option GoError × Run σ :=
  let configFile := configDir ++ "/orgs.yml"
  match c.LoadFile r.world configFile with
  | (.error e, w) =>
    (some (.collaborator e), { r with world := w, log := r.log ++ [.LoadFile configFile] })
  | (.ok input, w) =>
    match fetchOrgs c { r with world := w, log := r.log ++ [.LoadFile configFile] } with
    | (some err, r1) => (some err, r1)
    | (none, r1) => (none, CreateOrgs.loop c input.Orgs r1)

/-- The URL `https://api.{SysDomain}/v2/organizations/{guid}/{role}` of the role grant. -/
def roleURL (m : DefaultOrgManager) (org : Resource) (role : String) : String :=
  "https://api." ++ m.SysDomain ++ "/v2/organizations/" ++ org.MetaData.GUID ++ "/" ++ role

/-- The Go function `func (m *DefaultOrgManager) addRole(userName, role string, org Resource) (err error)`. -/
def addRole {σ : Type} (c : Collaborators σ) (userName role : String) (org : Resource)
    (r : Run σ) : Option GoError × Run σ :=
  let orgName := org.Entity.Name
  match AddUser c orgName userName r with
  | (some err, r1) => (some err, r1)
  | (none, r1) =>
    let url := roleURL r1.m org role
    let sendString := usernameBody userName
    match c.HTTPPut r1.world url r1.m.Token sendString with
    | (err, w) =>
      (err.map .collaborator,
        { r1 with world := w, log := r1.log ++ [.HTTPPut url r1.m.Token sendString] })

/-- The account part of the body of the member loop of `updateUsers`: the lookup
`uaacUsers[groupUser.UserID]` and, on a miss, the call of `CreateUser`. -/
def updateUsers.create {σ : Type} (c : Collaborators σ) (uaacUsers : GoMap String)
    (groupUser : ldap.User) (r : Run σ) : Option GoError × Run σ :=
  if (uaacUsers groupUser.UserID).isSome then (none, r)
  else
    match c.CreateUser r.world groupUser.UserID groupUser.Email groupUser.UserDN with
    | (err, w) =>
      (err.map .collaborator,
        { r with world := w,
                 log := r.log ++ [.CreateUser groupUser.UserID groupUser.Email groupUser.UserDN] })

/-- The `for _, groupUser := range groupUsers` loop of `updateUsers`. -/
def updateUsers.loop {σ : Type} (c : Collaborators σ) (org : Resource) (role : String)
    (uaacUsers : GoMap String) : List ldap.User → Run σ → Option GoError × Run σ
  | [], r => (none, r)
  | groupUser :: rest, r =>
    match updateUsers.create c uaacUsers groupUser r with
    | (some err, r1) => (some err, r1)
    | (none, r1) =>
      match addRole c groupUser.UserID role org r1 with
      | (some err, r2) => (some err, r2)
      | (none, r2) => updateUsers.loop c org role uaacUsers rest r2

/-- The Go function `func (m *DefaultOrgManager) updateUsers(ldapMgr, uaacMgr, org, role, groupName) (err error)`. -/
def updateUsers {σ : Type} (c : Collaborators σ) (org : Resource) (role groupName : String)
    (r : Run σ) : Option GoError × Run σ :=
  if groupName ≠ "" then
    match c.GetUserIDs r.world groupName with
    | (.error e, w) =>
      (some (.collaborator e), { r with world := w, log := r.log ++ [.GetUserIDs groupName] })
    | (.ok groupUsers, w) =>
      match c.ListUsers w with
      | (.error e, w1) =>
        (some (.collaborator e),
          { r with world := w1, log := r.log ++ [.GetUserIDs groupName, .ListUsers] })
      | (.ok uaacUsers, w1) =>
        updateUsers.loop c org role uaacUsers groupUsers
          { r with world := w1, log := r.log ++ [.GetUserIDs groupName, .ListUsers] }
  else (none, r)

/-- What issuing a logged call does to the state of the world: the state the collaborator
hands back for that call. -/
def Call.issue {σ : Type} (c : Collaborators σ) : Call → σ → σ
  | .GetUserIDs groupName, s => (c.GetUserIDs s groupName).2
  | .ListUsers, s => (c.ListUsers s).2
  | .CreateUser userID email userDN, s => (c.CreateUser s userID email userDN).2
  | .HTTPGet url token, s => (c.HTTPGet s url token).2
  | .HTTPPut url token body, s => (c.HTTPPut s url token body).2
  | .HTTPPost url token body, s => (c.HTTPPost s url token body).2
  | .LoadFile path, s => (c.LoadFile s path).2

/-- The state of the world after a list of calls has been issued to the collaborators, one
after the other, from the state `s`. -/
def replay {σ : Type} (c : Collaborators σ) (calls : List Call) (s : σ) : σ :=
  calls.foldl (fun s call => call.issue c s) s

/-- The run `r` after the calls `calls` have been issued to the collaborators and logged. -/
def Run.after {σ : Type} (c : Collaborators σ) (r : Run σ) (calls : List Call) : Run σ :=
  { r with world := replay c calls r.world, log := r.log ++ calls }

/-- The URL `https://api.{SysDomain}/v2/organizations/{guid}/users` of the membership PUT. -/
def usersURL (m : DefaultOrgManager) (org : Resource) : String :=
  "https://api." ++ m.SysDomain ++ "/v2/organizations/" ++ org.MetaData.GUID ++ "/users"

/-- The calls for one member in the words of the specification, when every call succeeds:
the account creation unless the case-normalized user ID of the member is in the account
cache, the listing of the organizations that the membership add starts with, the membership
PUT, the role PUT. -/
def memberCalls (ToLower : String → String) (m : DefaultOrgManager) (uaacUsers : GoMap String)
    (org : Resource) (role : String) (groupUser : ldap.User) : List Call :=
  (if (uaacUsers (ToLower groupUser.UserID)).isSome then []
   else [Call.CreateUser groupUser.UserID groupUser.Email groupUser.UserDN])
  ++ [Call.HTTPGet (orgsURL m) m.Token,
      Call.HTTPPut (usersURL m org) m.Token (usernameBody groupUser.UserID),
      Call.HTTPPut (roleURL m org role) m.Token (usernameBody groupUser.UserID)]

/-- The calls for a list of members, in the order of the list. -/
def membersCalls (ToLower : String → String) (m : DefaultOrgManager)
    (uaacUsers : GoMap String) (org : Resource) (role : String) : List ldap.User → List Call
  | [] => []
  | groupUser :: rest =>
    memberCalls ToLower m uaacUsers org role groupUser
      ++ membersCalls ToLower m uaacUsers org role rest

/-- The account creation for a member as the code decides it: none when the user ID, as the
directory spells it, is a key of the account cache. -/
def createCalls (uaacUsers : GoMap String) (groupUser : ldap.User) : List Call :=
  if (uaacUsers groupUser.UserID).isSome then []
  else [Call.CreateUser groupUser.UserID groupUser.Email groupUser.UserDN]

/-- One organization resource as JSON text. -/
def renderResource (o : Resource) : String :=
  "\x7b\"metadata\":\x7b\"guid\":\"" ++ o.MetaData.GUID ++ "\"\x7d,\"entity\":\x7b\"name\":\""
    ++ o.Entity.Name ++ "\"\x7d\x7d"

/-- The resources of a listing as JSON text, separated by commas. -/
def renderResourceList : List Resource → String
  | [] => ""
  | [o] => renderResource o
  | o :: rest => renderResource o ++ "," ++ renderResourceList rest

/-- The body of a listing of organizations as JSON text. -/
def renderResources (orgs : List Resource) : String :=
  "\x7b\"resources\":[" ++ renderResourceList orgs ++ "]\x7d"

/-- The user ID of a logged account creation. -/
def Call.created? : Call → Option String
  | .CreateUser userID _ _ => some userID
  | _ => none

/-- A platform for the reconciler whose state is the list of accounts: the account cache is
the index that `ListUsers` of `uaa.go` builds over the accounts (the account manager that
`orgs.go` takes is declared outside the two source files), a successful account creation
appends the account, and nothing else changes the state. The directory and the listing of
organizations are fixed: every GET is answered with the listing as JSON text, which is the
one body the decoder accepts. `failPost` and `failCreate` make the organization creation
request and the account creation fail. -/
def accountPlatform (directory : String → List ldap.User) (orgs : List Resource)
    (configured : List String) (failPost failCreate : String → Bool) :
    Collaborators (List uaa.User) where
  GetUserIDs := fun s groupName => (.ok (directory groupName), s)
  ListUsers := fun s => (.ok (uaa.ListUsers.index asciiToLower s), s)
  CreateUser := fun s userID _ _ =>
    if failCreate userID then (some "create refused", s)
    else (none, s ++ [⟨"guid-of-" ++ userID, userID, "ldap"⟩])
  HTTPGet := fun s _ _ => (.ok (renderResources orgs), s)
  HTTPPut := fun s _ _ _ => (none, s)
  HTTPPost := fun s _ _ body => if failPost body then (.error "post refused", s) else (.ok "", s)
  LoadFile := fun s _ => (.ok ⟨configured⟩, s)
  Unmarshal := fun body =>
    if body = renderResources orgs then .ok orgs else .error "invalid JSON"

/-- A platform for the reconciler whose state is the list of the calls the collaborators
have received, in order: every handler appends its call to the state. The directory, the
account cache and the listing of organizations are fixed; a call for which `refuse` gives a
detail fails with it. The decoder accepts the listing as JSON text and nothing else. -/
def recordingPlatform (directory : String → List ldap.User) (uaacUsers : GoMap String)
    (orgs : List Resource) (refuse : Call → Option String) : Collaborators (List Call) where
  GetUserIDs := fun s groupName =>
    (match refuse (.GetUserIDs groupName) with
      | some e => .error e
      | none => .ok (directory groupName), s ++ [.GetUserIDs groupName])
  ListUsers := fun s =>
    (match refuse .ListUsers with
      | some e => .error e
      | none => .ok uaacUsers, s ++ [.ListUsers])
  CreateUser := fun s userID email userDN =>
    (refuse (.CreateUser userID email userDN), s ++ [.CreateUser userID email userDN])
  HTTPGet := fun s url token =>
    (match refuse (.HTTPGet url token) with
      | some e => .error e
      | none => .ok (renderResources orgs), s ++ [.HTTPGet url token])
  HTTPPut := fun s url token body =>
    (refuse (.HTTPPut url token body), s ++ [.HTTPPut url token body])
  HTTPPost := fun s url token body =>
    (match refuse (.HTTPPost url token body) with
      | some e => .error e
      | none => .ok "", s ++ [.HTTPPost url token body])
  LoadFile := fun s path =>
    (match refuse (.LoadFile path) with
      | some e => .error e
      | none => .ok ⟨[]⟩, s ++ [.LoadFile path])
  Unmarshal := fun body =>
    if body = renderResources orgs then .ok orgs else .error "invalid JSON"

/-- Refusal of exactly one call, with a detail. -/
def refuseOnly (target : Call) (detail : String) : Call → Option String :=
  fun call => if call = target then some detail else none

/-- The three members of the examples. -/
def exampleMembers : List ldap.User :=
  [⟨"alice", "a@x.com", "cn=alice"⟩, ⟨"bob", "b@x.com", "cn=bob"⟩,
    ⟨"carol", "c@x.com", "cn=carol"⟩]

/-- The organization of the examples. -/
def acme : Resource := ⟨⟨"guid-acme"⟩, ⟨"acme"⟩⟩

/-- The manager of the examples. -/
def exampleManager : DefaultOrgManager := ⟨"example.com", "token", "uaac-token", []⟩

end organization

/-! Theorems. -/

namespace uaa

theorem listResources.loop_chain {σ P : Type} (m : DefaultUAAManager σ P) (pg : Pagination P)
    (url : String) (createInstance : Unit → P) (rest : List P) :
    ∀ (fuel : Nat) (target p : P) (w : World σ P),
      IsChain m pg url (createInstance ()) w.state p rest → rest.length ≤ fuel →
      listResources.loop m pg url createInstance fuel target (pg.GetNextURL p url) w =
        some (none, rest.foldl pg.AddInstances target,
          ⟨chainState m pg url (createInstance ()) w.state p rest,
            w.log ++ chainLog m.Token pg url (createInstance ()) p rest⟩) := by
  induction rest with
  | nil =>
    intro fuel target p w h _
    simp only [IsChain] at h
    cases fuel <;> simp [listResources.loop, h, chainState, chainLog]
  | cons q rest ih =>
    intro fuel target p w h hf
    obtain ⟨hne, hget, hrest⟩ := h
    cases fuel with
    | zero => simp at hf
    | succ fuel =>
      have hf2 : rest.length ≤ fuel := by simpa using hf
      have hg : m.Http.Get w.state (pg.GetNextURL p url) m.Token (createInstance ()) =
          (.ok q, (m.Http.Get w.state (pg.GetNextURL p url) m.Token (createInstance ())).2) :=
        Prod.ext hget rfl
      rw [listResources.loop, if_neg hne]
      simp only []
      rw [hg]
      simp only []
      rw [ih fuel (pg.AddInstances target q) q ⟨_, _⟩ hrest hf2]
      simp [chainState, chainLog]

theorem chainLog_getURL {P : Type} (token : String) (pg : Pagination P) (url : String)
    (fresh : P) (rest : List P) : ∀ p : P,
      (chainLog token pg url fresh p rest).filterMap Call.getURL? =
        ((p :: rest).dropLast).map (fun q => pg.GetNextURL q url) := by
  induction rest with
  | nil => intro p; simp [chainLog]
  | cons q rest ih => intro p; simp [chainLog, Call.getURL?, ih q]

theorem chainLog_added {P : Type} (token : String) (pg : Pagination P) (url : String)
    (fresh : P) (rest : List P) : ∀ p : P,
      (chainLog token pg url fresh p rest).filterMap Call.added? = rest := by
  induction rest with
  | nil => intro p; simp [chainLog]
  | cons q rest ih => intro p; simp [chainLog, Call.added?, ih q]

theorem chainLog_getTarget {P : Type} (token : String) (pg : Pagination P) (url : String)
    (fresh : P) (rest : List P) : ∀ p : P,
      (chainLog token pg url fresh p rest).filterMap Call.getTarget? =
        List.replicate rest.length fresh := by
  induction rest with
  | nil => intro p; simp [chainLog]
  | cons q rest ih => intro p; simp [chainLog, Call.getTarget?, ih q, List.replicate_succ]

theorem foldl_items_append {P α : Type} (add : P → P → P) (items : P → List α)
    (hadd : ∀ t p, items (add t p) = items t ++ items p) (rest : List P) :
    ∀ t : P, items (rest.foldl add t) = items t ++ (rest.map items).flatten := by
  induction rest with
  | nil => intro t; simp
  | cons q rest ih => intro t; simp [ih, hadd]

/-- C1: for a chain of pages `p0 :: rest` in which every page links to the next one, the
last page has the empty link and every GET succeeds, `listResources` (with fuel for one
iteration per continuation page) returns nil; it issues `rest.length + 1` GETs, the initial
URL first and then the link of each page but the last, in order; every continuation page is
decoded into the instance that `createInstance` returns; `AddInstances` is called once per
continuation page, in page order; and when the merge appends, the items of the accumulator
are the items of `p0`, then of each continuation page in order, nothing dropped. -/
theorem listResources_pagination_complete {σ P : Type} (m : DefaultUAAManager σ P)
    (pg : Pagination P) (url : String) (target : P) (createInstance : Unit → P)
    (w : World σ P) (p0 : P) (rest : List P) (fuel : Nat)
    (hfirst : (m.Http.Get w.state url m.Token target).1 = .ok p0)
    (hchain : IsChain m pg url (createInstance ())
      (m.Http.Get w.state url m.Token target).2 p0 rest)
    (hfuel : rest.length ≤ fuel) :
    ∃ (wEnd : World σ P) (calls : List (Call P)),
      listResources m pg fuel url target createInstance w =
        some (none, rest.foldl pg.AddInstances p0, wEnd) ∧
      wEnd.log = w.log ++ calls ∧
      calls = Call.Get url m.Token target :: chainLog m.Token pg url (createInstance ()) p0 rest ∧
      calls.filterMap Call.getURL? =
        url :: ((p0 :: rest).dropLast).map (fun q => pg.GetNextURL q url) ∧
      (calls.filterMap Call.getURL?).length = rest.length + 1 ∧
      calls.filterMap Call.getTarget? = target :: List.replicate rest.length (createInstance ()) ∧
      calls.filterMap Call.added? = rest ∧
      ∀ (α : Type) (items : P → List α),
        (∀ t p, items (pg.AddInstances t p) = items t ++ items p) →
        items (rest.foldl pg.AddInstances p0) = ((p0 :: rest).map items).flatten := by
  have hg : m.Http.Get w.state url m.Token target =
      (.ok p0, (m.Http.Get w.state url m.Token target).2) := Prod.ext hfirst rfl
  refine ⟨⟨chainState m pg url (createInstance ())
      (m.Http.Get w.state url m.Token target).2 p0 rest,
      w.log ++ Call.Get url m.Token target :: chainLog m.Token pg url (createInstance ()) p0 rest⟩,
    _, ?_, rfl, rfl, ?_, ?_, ?_, ?_, ?_⟩
  · unfold listResources
    rw [hg]
    simp only []
    cases rest with
    | nil =>
      simp only [IsChain] at hchain
      simp [hchain, chainState, chainLog]
    | cons q rest =>
      have hne : pg.GetNextURL p0 url ≠ "" := hchain.1
      rw [if_neg hne]
      rw [listResources.loop_chain m pg url createInstance (q :: rest) fuel p0 p0 ⟨_, _⟩
        hchain hfuel]
      simp
  · simp [Call.getURL?, chainLog_getURL]
  · simp [Call.getURL?, chainLog_getURL]
  · simp [Call.getTarget?, chainLog_getTarget]
  · simp [Call.added?, chainLog_added]
  · intro α items hadd
    simp [foldl_items_append pg.AddInstances items hadd]

/-- Witness of C1: three pages holding five users, two per page. -/
theorem listResources_pagination_complete_witness :
    ∃ (wEnd : World Unit UserList) (calls : List (Call UserList)),
      listResources (exampleUAAManager false) examplePagination 2
          "https://uaa.example.com/Users?count=5000" ⟨[], 0, 0, 0⟩
          (fun _ => ⟨[], 0, 0, 0⟩) ⟨(), []⟩ =
        some (none, [examplePage2, examplePage3].foldl examplePagination.AddInstances
          examplePage1, wEnd) ∧
      wEnd.log = [] ++ calls ∧
      calls = Call.Get "https://uaa.example.com/Users?count=5000" "token" ⟨[], 0, 0, 0⟩ ::
        chainLog "token" examplePagination "https://uaa.example.com/Users?count=5000"
          ⟨[], 0, 0, 0⟩ examplePage1 [examplePage2, examplePage3] ∧
      calls.filterMap Call.getURL? =
        "https://uaa.example.com/Users?count=5000" ::
          (([examplePage1, examplePage2, examplePage3]).dropLast).map
            (fun q => examplePagination.GetNextURL q "https://uaa.example.com/Users?count=5000") ∧
      (calls.filterMap Call.getURL?).length = 2 + 1 ∧
      calls.filterMap Call.getTarget? =
        (⟨[], 0, 0, 0⟩ : UserList) :: List.replicate 2 ⟨[], 0, 0, 0⟩ ∧
      calls.filterMap Call.added? = [examplePage2, examplePage3] ∧
      ∀ (α : Type) (items : UserList → List α),
        (∀ t p, items (examplePagination.AddInstances t p) = items t ++ items p) →
        items ([examplePage2, examplePage3].foldl examplePagination.AddInstances examplePage1) =
          (([examplePage1, examplePage2, examplePage3]).map items).flatten :=
  listResources_pagination_complete (exampleUAAManager false) examplePagination
    "https://uaa.example.com/Users?count=5000" ⟨[], 0, 0, 0⟩ (fun _ => ⟨[], 0, 0, 0⟩) ⟨(), []⟩
    examplePage1 [examplePage2, examplePage3] 2 (by rfl)
    ⟨by decide, by rfl, by decide, by rfl,
      (rfl : examplePagination.GetNextURL examplePage3
        "https://uaa.example.com/Users?count=5000" = "")⟩ (by decide)

theorem foldl_set_lookup {V : Type} (key : User → String) (val : User → V)
    (users : List User) : ∀ (m0 : GoMap V) (k : String),
      (users.foldl (fun acc u => acc.set (key u) (val u)) m0) k =
        match (users.filter (fun u => key u = k)).getLast? with
        | some u => some (val u)
        | none => m0 k := by
  induction users with
  | nil => intro m0 k; simp
  | cons u rest ih =>
    intro m0 k
    rw [List.foldl_cons, ih]
    by_cases hk : key u = k
    · rw [List.filter_cons_of_pos (by simpa using hk)]
      cases hl : rest.filter (fun u => key u = k) with
      | nil => simp [GoMap.set, hk]
      | cons a t =>
        rw [List.getLast?_cons_cons]
        cases h : (a :: t).getLast? with
        | none => simp at h
        | some x => rfl
    · rw [List.filter_cons_of_neg (by simpa using hk)]
      cases hl : (rest.filter (fun u => key u = k)).getLast? with
      | none => simp [GoMap.set, Ne.symm hk]
      | some a => simp

theorem index_lookup {V : Type} (key : User → String) (val : User → V) (users : List User)
    (k : String) :
    (users.foldl (fun acc u => acc.set (key u) (val u)) GoMap.empty) k =
      ((users.filter (fun u => key u = k)).getLast?).map val := by
  rw [foldl_set_lookup]
  cases (users.filter (fun u => key u = k)).getLast? <;> simp [GoMap.empty]

theorem index_isSome {V : Type} (key : User → String) (val : User → V) (users : List User)
    (k : String) :
    ((users.foldl (fun acc u => acc.set (key u) (val u)) GoMap.empty) k).isSome = true ↔
      k ∈ users.map key := by
  rw [index_lookup]
  cases hl : users.filter (fun u => key u = k) with
  | nil =>
    simp only [List.getLast?_nil, Option.map_none', Option.isSome_none, List.mem_map]
    constructor
    · intro h; cases h
    · rintro ⟨u, hu, hk⟩
      have : u ∈ users.filter (fun u => key u = k) := by simp [List.mem_filter, hu, hk]
      rw [hl] at this
      cases this
  | cons a t =>
    have ha : a ∈ users.filter (fun u => key u = k) := by rw [hl]; simp
    have ha2 := List.mem_filter.mp ha
    have : ((a :: t).getLast?).isSome = true := by
      cases h : (a :: t).getLast? with
      | none => simp at h
      | some x => rfl
    simp only [Option.isSome_map', this, List.mem_map, true_iff]
    exact ⟨a, ha2.1, by simpa using ha2.2⟩

/-- C2: when the user list is fetched, `ListUsers` and `UsersByID` return maps whose keys
are exactly the lowercased user names of the fetched users, and a key maps to the ID (for
`UsersByID`, to the whole record) of the last fetched user whose lowercased name is that key;
users named `Alice` and then `alice` give one entry, keyed `alice`, holding the second one. -/
theorem ListUsers_case_normalization {σ : Type} (ToLower : String → String)
    (m : DefaultUAAManager σ UserList) (pg : Pagination UserList)
    (NewUserListResources : Unit → UserList) (fuel : Nat) (w w1 : World σ UserList)
    (userList : UserList)
    (hfetch : getUsers m pg NewUserListResources fuel w = some (.ok userList, w1)) :
    (∃ index : GoMap String,
      ListUsers ToLower m pg NewUserListResources fuel w = some (.ok index, w1) ∧
      (∀ k, (index k).isSome = true ↔ k ∈ userList.Users.map (fun u => ToLower u.UserName)) ∧
      ∀ k, index k =
        ((userList.Users.filter (fun u => ToLower u.UserName = k)).getLast?).map User.ID) ∧
    (∃ index : GoMap User,
      UsersByID ToLower m pg NewUserListResources fuel w = some (.ok index, w1) ∧
      (∀ k, (index k).isSome = true ↔ k ∈ userList.Users.map (fun u => ToLower u.UserName)) ∧
      ∀ k, index k = (userList.Users.filter (fun u => ToLower u.UserName = k)).getLast?) ∧
    (∀ (first second : User) (k : String),
      first.UserName = "Alice" → second.UserName = "alice" →
      ListUsers.index asciiToLower [first, second] k =
        (if k = "alice" then some second.ID else none) ∧
      UsersByID.index asciiToLower [first, second] k =
        (if k = "alice" then some second else none)) := by
  refine ⟨⟨ListUsers.index ToLower userList.Users, ?_, ?_, ?_⟩,
    ⟨UsersByID.index ToLower userList.Users, ?_, ?_, ?_⟩, ?_⟩
  · simp [ListUsers, hfetch]
  · intro k
    exact index_isSome (fun u => ToLower u.UserName) User.ID userList.Users k
  · intro k
    exact index_lookup (fun u => ToLower u.UserName) User.ID userList.Users k
  · simp [UsersByID, hfetch]
  · intro k
    exact index_isSome (fun u => ToLower u.UserName) (fun u => u) userList.Users k
  · intro k
    have h := index_lookup (fun u => ToLower u.UserName) (fun u => u) userList.Users k
    simpa using h
  · intro first second k h1 h2
    have e1 : asciiToLower "Alice" = "alice" := by decide
    have e2 : asciiToLower "alice" = "alice" := by decide
    constructor
    · simp only [ListUsers.index, List.foldl_cons, List.foldl_nil, GoMap.set, GoMap.empty, h1, h2,
        e1, e2]
      split <;> rfl
    · simp only [UsersByID.index, List.foldl_cons, List.foldl_nil, GoMap.set, GoMap.empty, h1, h2,
        e1, e2]
      split <;> rfl

/-- Witness of C2: the five users of the example, fetched over three pages. -/
theorem ListUsers_case_normalization_witness :
    (∃ index : GoMap String,
      ListUsers asciiToLower (exampleUAAManager false) examplePagination
        (fun _ => ⟨[], 0, 0, 0⟩) 2 ⟨(), []⟩ =
        some (.ok index, (⟨(), Call.Get "https://uaa.example.com/Users?count=5000" "token" ⟨[], 0, 0, 0⟩ ::
            chainLog "token" examplePagination "https://uaa.example.com/Users?count=5000"
              ⟨[], 0, 0, 0⟩ examplePage1 [examplePage2, examplePage3]⟩ : World Unit UserList)) ∧
      index "alice" = some "3" ∧ index "Alice" = none) := by
  obtain ⟨⟨index, h1, _, h3⟩, _⟩ := ListUsers_case_normalization asciiToLower
    (exampleUAAManager false) examplePagination (fun _ => ⟨[], 0, 0, 0⟩) 2 ⟨(), []⟩
    ⟨(), Call.Get "https://uaa.example.com/Users?count=5000" "token" ⟨[], 0, 0, 0⟩ ::
            chainLog "token" examplePagination "https://uaa.example.com/Users?count=5000"
              ⟨[], 0, 0, 0⟩ examplePage1 [examplePage2, examplePage3]⟩
    ⟨[⟨"1", "Alice", "uaa"⟩, ⟨"2", "bob", "ldap"⟩, ⟨"3", "alice", "ldap"⟩,
      ⟨"4", "Carol", "ldap"⟩, ⟨"5", "dave", "ldap"⟩], 1, 2, 5⟩ (by rfl)
  refine ⟨index, h1, ?_, ?_⟩
  · rw [h3]; decide
  · rw [h3]; decide

theorem Replace.scan_unescape (n : Nat) : ∀ cs : List Char, cs.length ≤ n →
    strings.Replace.scan ['\\', ','] [','] none 0 cs = unescapeCommas cs := by
  induction n with
  | zero =>
    intro cs h
    have : cs = [] := List.length_eq_zero.mp (Nat.le_zero.mp h)
    subst this
    simp [strings.Replace.scan, unescapeCommas]
  | succ n ih =>
    intro cs h
    match cs, h with
    | [], _ => simp [strings.Replace.scan, unescapeCommas]
    | [c], _ =>
      simp [strings.Replace.scan, unescapeCommas, strings.HasPrefix]
    | c :: d :: rest, h =>
      have h1 : (d :: rest).length ≤ n := by simpa using h
      have h2 : rest.length ≤ n := by
        have : rest.length + 1 ≤ n := by simpa using h1
        omega
      by_cases hc : c = '\\' ∧ d = ','
      · obtain ⟨rfl, rfl⟩ := hc
        simp [strings.Replace.scan, unescapeCommas, strings.HasPrefix, ih rest h2]
      · have hp : strings.HasPrefix (c :: d :: rest) ['\\', ','] = false := by
          simp only [strings.HasPrefix, Bool.and_true, Bool.and_eq_false_imp, beq_iff_eq]
          intro h3
          simpa [h3] using hc
        rw [strings.Replace.scan]
        simp only [hp, unescapeCommas, if_neg hc]
        simp [ih (d :: rest) h1]

theorem Replace_unescape (externalID : String) :
    strings.Replace externalID "\\," "," (-1) = String.mk (unescapeCommas externalID.data) := by
  have h1 : ¬ (("\\," : String) = "," ∨ (-1 : Int) = 0) := by decide
  have h2 : ¬ (("\\," : String).data = []) := by decide
  have h3 : ((-1 : Int) < 0) := by decide
  unfold strings.Replace
  rw [if_neg h1]
  simp only [h3, if_true, if_neg h2]
  rw [Replace.scan_unescape externalID.data.length externalID.data (Nat.le_refl _)]

/-- C7: `CreateExternalUser` returns the error it builds with `errors.New` exactly when one
of `userName`, `userEmail`, `externalID` is empty, whatever `origin` and the dry-run flag
are; and when it does, the world is as before the call: nothing was added to the log of
calls and the state of the remote side is unchanged. -/
theorem CreateExternalUser_validation {σ P : Type} (m : DefaultUAAManager σ P)
    (userName userEmail externalID origin : String) (w : World σ P) :
    ((∃ msg, (CreateExternalUser m userName userEmail externalID origin w).1 =
        some (.errorsNew msg)) ↔
      (userName = "" ∨ userEmail = "" ∨ externalID = "")) ∧
    ((userName = "" ∨ userEmail = "" ∨ externalID = "") →
      CreateExternalUser m userName userEmail externalID origin w =
        (some (.errorsNew ("skipping user as missing name[" ++ userName ++ "], email["
          ++ userEmail ++ "] or externalID[" ++ externalID ++ "]")), w)) := by
  constructor
  · constructor
    · rintro ⟨msg, h⟩
      by_contra hne
      unfold CreateExternalUser at h
      rw [if_neg hne] at h
      by_cases hp : m.Peek = true
      · simp [hp] at h
      · simp only [hp] at h
        cases hpost : m.Http.Post w.state (m.Host ++ "/Users") m.Token
            (CreateExternalUser.payload userName userEmail externalID origin) with
        | mk res s =>
          rw [hpost] at h
          cases res <;> simp at h
    · intro hv
      exact ⟨"skipping user as missing name[" ++ userName ++ "], email[" ++ userEmail
        ++ "] or externalID[" ++ externalID ++ "]", by simp [CreateExternalUser, hv]⟩
  · intro hv
    simp [CreateExternalUser, hv]

/-- Witness of C7: the empty e-mail address of the specification, with the dry-run flag off
and on. -/
theorem CreateExternalUser_validation_witness :
    (CreateExternalUser (exampleUAAManager false) "bob" "" "cn=bob" "ldap" ⟨(), []⟩).1 =
      some (.errorsNew "skipping user as missing name[bob], email[] or externalID[cn=bob]") ∧
    (CreateExternalUser (exampleUAAManager false) "bob" "" "cn=bob" "ldap" ⟨(), []⟩).2.log = [] ∧
    (CreateExternalUser (exampleUAAManager true) "bob" "" "cn=bob" "ldap" ⟨(), []⟩).2.log = [] := by
  have h1 := (CreateExternalUser_validation (exampleUAAManager false) "bob" "" "cn=bob" "ldap"
    ⟨(), []⟩).2 (by decide)
  have h2 := (CreateExternalUser_validation (exampleUAAManager true) "bob" "" "cn=bob" "ldap"
    ⟨(), []⟩).2 (by decide)
  rw [h1, h2]
  exact ⟨by decide, rfl, rfl⟩

/-- C8: with non-empty `userName`, `userEmail` and `externalID` and the dry-run flag off,
`CreateExternalUser` issues exactly one call to the transport, a POST to `{Host}/Users` whose
payload is `{"userName":U,"emails":[{"value":E}],"origin":O,"externalId":X}` with the user
name, the e-mail address and the origin as given and `X` the external id in which every
backslash followed by a comma has become a comma (left to right) and every other character
is unchanged: the error returned is the error of that POST (nil when it succeeds), the
state of the remote side is the state that POST hands back, and the log gains that one
call. `cn=foo\,bar` is submitted as `cn=foo,bar`. -/
theorem CreateExternalUser_unescapes_DN {σ P : Type} (m : DefaultUAAManager σ P)
    (userName userEmail externalID origin : String) (w : World σ P)
    (hname : userName ≠ "") (hmail : userEmail ≠ "") (hid : externalID ≠ "")
    (hpeek : m.Peek = false) :
    CreateExternalUser m userName userEmail externalID origin w =
      ((match (m.Http.Post w.state (m.Host ++ "/Users") m.Token
          ("\x7b\"userName\":\"" ++ userName ++ "\",\"emails\":[\x7b\"value\":\"" ++ userEmail
            ++ "\"\x7d],\"origin\":\"" ++ origin ++ "\",\"externalId\":\""
            ++ String.mk (unescapeCommas externalID.data) ++ "\"\x7d")).1 with
        | .error e => some (GoError.collaborator e)
        | .ok _ => none),
       ⟨(m.Http.Post w.state (m.Host ++ "/Users") m.Token
          ("\x7b\"userName\":\"" ++ userName ++ "\",\"emails\":[\x7b\"value\":\"" ++ userEmail
            ++ "\"\x7d],\"origin\":\"" ++ origin ++ "\",\"externalId\":\""
            ++ String.mk (unescapeCommas externalID.data) ++ "\"\x7d")).2,
        w.log ++ [Call.Post (m.Host ++ "/Users") m.Token
          ("\x7b\"userName\":\"" ++ userName ++ "\",\"emails\":[\x7b\"value\":\"" ++ userEmail
            ++ "\"\x7d],\"origin\":\"" ++ origin ++ "\",\"externalId\":\""
            ++ String.mk (unescapeCommas externalID.data) ++ "\"\x7d")]⟩) ∧
    String.mk (unescapeCommas ("cn=foo\\,bar" : String).data) = "cn=foo,bar" := by
  refine ⟨?_, by decide⟩
  have hv : ¬ (userName = "" ∨ userEmail = "" ∨ externalID = "") := by
    simp [hname, hmail, hid]
  unfold CreateExternalUser
  rw [if_neg hv]
  simp only [hpeek, CreateExternalUser.payload, Replace_unescape]
  cases hpost : m.Http.Post w.state (m.Host ++ "/Users") m.Token _ with
  | mk res s => cases res <;> simp

/-- Witness of C8: the distinguished name of the specification, on the transport that
records the requests it receives. The remote side has received the one POST, with the
comma unescaped, the call returns nil and the log holds that call. -/
theorem CreateExternalUser_unescapes_DN_witness :
    (CreateExternalUser recordingUAAManager "foo" "foo@x.com" "cn=foo\\,bar" "ldap"
      ⟨[], []⟩).1 = none ∧
    (CreateExternalUser recordingUAAManager "foo" "foo@x.com" "cn=foo\\,bar" "ldap"
      ⟨[], []⟩).2.state =
      [("https://uaa.example.com/Users", "token",
        "\x7b\"userName\":\"foo\",\"emails\":[\x7b\"value\":\"foo@x.com\"\x7d],\"origin\":\"ldap\",\"externalId\":\"cn=foo,bar\"\x7d")] ∧
    (CreateExternalUser recordingUAAManager "foo" "foo@x.com" "cn=foo\\,bar" "ldap"
      ⟨[], []⟩).2.log =
      [Call.Post "https://uaa.example.com/Users" "token"
        "\x7b\"userName\":\"foo\",\"emails\":[\x7b\"value\":\"foo@x.com\"\x7d],\"origin\":\"ldap\",\"externalId\":\"cn=foo,bar\"\x7d"] := by
  refine ⟨?_, by decide, by decide⟩
  rw [(CreateExternalUser_unescapes_DN recordingUAAManager "foo" "foo@x.com" "cn=foo\\,bar"
    "ldap" ⟨[], []⟩ (by decide) (by decide) (by decide) rfl).1]
  rfl

end uaa

namespace organization

theorem FindOrg.scan_eq_find (orgs : List Resource) (orgName : String) :
    FindOrg.scan orgs orgName =
      (orgs.find? (fun o => o.Entity.Name = orgName)).getD Resource.zero := by
  induction orgs with
  | nil => simp [FindOrg.scan]
  | cons o rest ih =>
    by_cases h : o.Entity.Name = orgName
    · simp [FindOrg.scan, h]
    · simp [FindOrg.scan, h, ih]

theorem fetchOrgs_ok {σ : Type} (c : Collaborators σ) (r : Run σ) (body : String)
    (listing : List Resource)
    (h1 : (c.HTTPGet r.world (orgsURL r.m) r.m.Token).1 = .ok body)
    (h2 : c.Unmarshal body = .ok listing) :
    fetchOrgs c r =
      (none, { m := { r.m with Orgs := listing },
               world := (c.HTTPGet r.world (orgsURL r.m) r.m.Token).2,
               log := r.log ++ [.HTTPGet (orgsURL r.m) r.m.Token] }) := by
  have hg : c.HTTPGet r.world (orgsURL r.m) r.m.Token =
      (.ok body, (c.HTTPGet r.world (orgsURL r.m) r.m.Token).2) := Prod.ext h1 rfl
  unfold fetchOrgs
  simp only []
  rw [hg]
  simp only [h2]

theorem replay_append {σ : Type} (c : Collaborators σ) (a b : List Call) (s : σ) :
    replay c (a ++ b) s = replay c b (replay c a s) := by
  simp [replay, List.foldl_append]

theorem replay_cons {σ : Type} (c : Collaborators σ) (a : Call) (l : List Call) (s : σ) :
    replay c (a :: l) s = replay c l (a.issue c s) := rfl

theorem replay_nil {σ : Type} (c : Collaborators σ) (s : σ) : replay c [] s = s := rfl

theorem Run.after_after {σ : Type} (c : Collaborators σ) (r : Run σ) (a b : List Call) :
    (r.after c a).after c b = r.after c (a ++ b) := by
  simp [Run.after, replay_append, List.append_assoc]

theorem Run.after_nil {σ : Type} (c : Collaborators σ) (r : Run σ) : r.after c [] = r := by
  simp [Run.after, replay]

theorem create_pass {σ : Type} (c : Collaborators σ) (uaacUsers : GoMap String)
    (mem : ldap.User) (r : Run σ)
    (hacct : (uaacUsers mem.UserID).isSome = true ∨
      (c.CreateUser r.world mem.UserID mem.Email mem.UserDN).1 = none) :
    updateUsers.create c uaacUsers mem r = (none, r.after c (createCalls uaacUsers mem)) := by
  unfold updateUsers.create createCalls
  by_cases hs : (uaacUsers mem.UserID).isSome = true
  · simp [hs, Run.after_nil]
  · have hc : (c.CreateUser r.world mem.UserID mem.Email mem.UserDN).1 = none := by
      cases hacct with
      | inl h => exact absurd h hs
      | inr h => exact h
    simp [hs, hc, Run.after, replay, Call.issue]

theorem create_refused {σ : Type} (c : Collaborators σ) (uaacUsers : GoMap String)
    (mem : ldap.User) (r : Run σ) (e : String)
    (hmiss : uaacUsers mem.UserID = none)
    (hfail : (c.CreateUser r.world mem.UserID mem.Email mem.UserDN).1 = some e) :
    updateUsers.create c uaacUsers mem r =
      (some (.collaborator e),
        r.after c [Call.CreateUser mem.UserID mem.Email mem.UserDN]) := by
  unfold updateUsers.create
  simp [hmiss, hfail, Run.after, replay, Call.issue]

theorem AddUser_get_refused {σ : Type} (c : Collaborators σ) (orgName userName : String)
    (r : Run σ) (e : String)
    (hget : (c.HTTPGet r.world (orgsURL r.m) r.m.Token).1 = .error e) :
    AddUser c orgName userName r =
      (some (.collaborator e), r.after c [Call.HTTPGet (orgsURL r.m) r.m.Token]) := by
  have hg : c.HTTPGet r.world (orgsURL r.m) r.m.Token =
      (.error e, (c.HTTPGet r.world (orgsURL r.m) r.m.Token).2) := Prod.ext hget rfl
  unfold AddUser FindOrg fetchOrgs
  simp only []
  rw [hg]
  simp [Run.after, replay, Call.issue]

theorem AddUser_decode_fails {σ : Type} (c : Collaborators σ) (orgName userName : String)
    (r : Run σ) (body e : String)
    (hget : (c.HTTPGet r.world (orgsURL r.m) r.m.Token).1 = .ok body)
    (hdec : c.Unmarshal body = .error e) :
    AddUser c orgName userName r =
      (some (.collaborator e), r.after c [Call.HTTPGet (orgsURL r.m) r.m.Token]) := by
  have hg : c.HTTPGet r.world (orgsURL r.m) r.m.Token =
      (.ok body, (c.HTTPGet r.world (orgsURL r.m) r.m.Token).2) := Prod.ext hget rfl
  unfold AddUser FindOrg fetchOrgs
  simp only []
  rw [hg]
  simp [hdec, Run.after, replay, Call.issue]

theorem AddUser_put {σ : Type} (c : Collaborators σ) (orgName userName : String)
    (r : Run σ) (body : String) (listing : List Resource)
    (hget : (c.HTTPGet r.world (orgsURL r.m) r.m.Token).1 = .ok body)
    (hdec : c.Unmarshal body = .ok listing) :
    AddUser c orgName userName r =
      ((c.HTTPPut (replay c [Call.HTTPGet (orgsURL r.m) r.m.Token] r.world)
          (usersURL r.m ((listing.find? (fun o => o.Entity.Name = orgName)).getD Resource.zero))
          r.m.Token (usernameBody userName)).1.map GoError.collaborator,
        { (r.after c [Call.HTTPGet (orgsURL r.m) r.m.Token,
            Call.HTTPPut (usersURL r.m
              ((listing.find? (fun o => o.Entity.Name = orgName)).getD Resource.zero))
              r.m.Token (usernameBody userName)]) with
          m := { r.m with Orgs := listing } }) := by
  unfold AddUser FindOrg
  rw [fetchOrgs_ok c r body listing hget hdec]
  simp [FindOrg.scan_eq_find, usersURL, Run.after, replay, Call.issue]

theorem addRole_put {σ : Type} (c : Collaborators σ) (org : Resource) (role userName : String)
    (r : Run σ) (body : String) (listing : List Resource)
    (hget : (c.HTTPGet r.world (orgsURL r.m) r.m.Token).1 = .ok body)
    (hdec : c.Unmarshal body = .ok listing)
    (hput : (c.HTTPPut (replay c [Call.HTTPGet (orgsURL r.m) r.m.Token] r.world)
      (usersURL r.m
        ((listing.find? (fun o => o.Entity.Name = org.Entity.Name)).getD Resource.zero))
      r.m.Token (usernameBody userName)).1 = none) :
    addRole c userName role org r =
      ((c.HTTPPut (replay c [Call.HTTPGet (orgsURL r.m) r.m.Token,
            Call.HTTPPut (usersURL r.m
              ((listing.find? (fun o => o.Entity.Name = org.Entity.Name)).getD Resource.zero))
              r.m.Token (usernameBody userName)] r.world)
          (roleURL r.m org role) r.m.Token (usernameBody userName)).1.map GoError.collaborator,
        { (r.after c [Call.HTTPGet (orgsURL r.m) r.m.Token,
            Call.HTTPPut (usersURL r.m
              ((listing.find? (fun o => o.Entity.Name = org.Entity.Name)).getD Resource.zero))
              r.m.Token (usernameBody userName),
            Call.HTTPPut (roleURL r.m org role) r.m.Token (usernameBody userName)]) with
          m := { r.m with Orgs := listing } }) := by
  unfold addRole
  simp only []
  rw [AddUser_put c org.Entity.Name userName r body listing hget hdec, hput]
  simp [roleURL, Run.after, replay, Call.issue]

theorem addRole_ok {σ : Type} (c : Collaborators σ) (org : Resource) (role userName : String)
    (r : Run σ)
    (hput : ∀ w u t b, (c.HTTPPut w u t b).1 = none)
    (hget : ∀ w, ∃ body listing, (c.HTTPGet w (orgsURL r.m) r.m.Token).1 = .ok body ∧
      c.Unmarshal body = .ok listing ∧
      listing.find? (fun o => o.Entity.Name = org.Entity.Name) = some org) :
    ∃ r1, addRole c userName role org r = (none, r1) ∧
      r1.log = r.log ++ [Call.HTTPGet (orgsURL r.m) r.m.Token,
        Call.HTTPPut (usersURL r.m org) r.m.Token (usernameBody userName),
        Call.HTTPPut (roleURL r.m org role) r.m.Token (usernameBody userName)] ∧
      r1.world = replay c [Call.HTTPGet (orgsURL r.m) r.m.Token,
        Call.HTTPPut (usersURL r.m org) r.m.Token (usernameBody userName),
        Call.HTTPPut (roleURL r.m org role) r.m.Token (usernameBody userName)] r.world ∧
      r1.m.SysDomain = r.m.SysDomain ∧ r1.m.Token = r.m.Token := by
  obtain ⟨body, listing, h1, h2, h3⟩ := hget r.world
  rw [addRole_put c org role userName r body listing h1 h2 (hput _ _ _ _), hput]
  simp [h3, Run.after]

theorem loop_ok {σ : Type} (ToLower : String → String) (c : Collaborators σ) (org : Resource)
    (role : String) (uaacUsers : GoMap String) (m0 : DefaultOrgManager)
    (hcreate : ∀ w a b d, (c.CreateUser w a b d).1 = none)
    (hput : ∀ w u t b, (c.HTTPPut w u t b).1 = none)
    (hget : ∀ w, ∃ body listing, (c.HTTPGet w (orgsURL m0) m0.Token).1 = .ok body ∧
      c.Unmarshal body = .ok listing ∧
      listing.find? (fun o => o.Entity.Name = org.Entity.Name) = some org)
    (members : List ldap.User) :
    (∀ u ∈ members, (uaacUsers u.UserID).isSome = (uaacUsers (ToLower u.UserID)).isSome) →
    ∀ r : Run σ, r.m.SysDomain = m0.SysDomain → r.m.Token = m0.Token →
      ∃ r1, updateUsers.loop c org role uaacUsers members r = (none, r1) ∧
        r1.log = r.log ++ membersCalls ToLower m0 uaacUsers org role members ∧
        r1.world = replay c (membersCalls ToLower m0 uaacUsers org role members) r.world := by
  induction members with
  | nil => intro _ r _ _; exact ⟨r, rfl, by simp [membersCalls], by simp [membersCalls, replay]⟩
  | cons u rest ih =>
    intro hcase r hs ht
    have hu := hcase u (List.mem_cons_self _ _)
    have e1 := create_pass c uaacUsers u r (Or.inr (hcreate _ _ _ _))
    have hget1 : ∀ w, ∃ body listing,
        (c.HTTPGet w (orgsURL (r.after c (createCalls uaacUsers u)).m)
          (r.after c (createCalls uaacUsers u)).m.Token).1 = .ok body ∧
        c.Unmarshal body = .ok listing ∧
        listing.find? (fun o => o.Entity.Name = org.Entity.Name) = some org := by
      intro w
      have := hget w
      simpa [orgsURL, Run.after, hs, ht] using this
    obtain ⟨r2, e2, l2, w2, s2, t2⟩ := addRole_ok c org role u.UserID _ hput hget1
    obtain ⟨r3, e3, l3, w3⟩ := ih (fun v hv => hcase v (List.mem_cons_of_mem _ hv))
      r2 (by rw [s2]; simpa [Run.after] using hs) (by rw [t2]; simpa [Run.after] using ht)
    refine ⟨r3, ?_, ?_, ?_⟩
    · rw [updateUsers.loop, e1]
      simp only []
      rw [e2]
      simp only []
      exact e3
    · rw [l3, l2]
      simp [membersCalls, memberCalls, createCalls, orgsURL, usersURL, roleURL, Run.after, hs,
        ht, hu]
    · rw [w3, w2]
      simp [membersCalls, memberCalls, createCalls, orgsURL, usersURL, roleURL, Run.after, hs,
        ht, hu, replay_append, replay_cons, replay_nil]

/-- C5: with a non-empty group name, when the directory query and the account listing
succeed, every account creation and every PUT succeeds, every listing of the organizations
resolves the name of the organization to it, and the lookup of every member is the same
with and without case normalization of the user ID, `updateUsers` returns nil and issues to
the collaborators, after the directory query and the account listing, for each member in
the order the directory returned them: the account creation (only when the member is absent
from the account cache), the listing of organizations that `AddUser` starts with, the PUT to
`/v2/organizations/{guid}/users`, and the PUT to `/v2/organizations/{guid}/{role}`. These are
the calls logged, and the state of the world at the end is the state the collaborators hand
back when exactly these calls are issued in this order. For a single member that is not in
the cache they are one creation, one membership PUT and one role PUT, in this order. -/
theorem updateUsers_call_order {σ : Type} (ToLower : String → String) (c : Collaborators σ)
    (org : Resource) (role groupName : String) (r : Run σ) (members : List ldap.User)
    (uaacUsers : GoMap String)
    (hname : groupName ≠ "")
    (hdir : (c.GetUserIDs r.world groupName).1 = .ok members)
    (hlist : (c.ListUsers (c.GetUserIDs r.world groupName).2).1 = .ok uaacUsers)
    (hcase : ∀ u ∈ members,
      (uaacUsers u.UserID).isSome = (uaacUsers (ToLower u.UserID)).isSome)
    (hcreate : ∀ w a b d, (c.CreateUser w a b d).1 = none)
    (hput : ∀ w u t b, (c.HTTPPut w u t b).1 = none)
    (hget : ∀ w, ∃ body listing, (c.HTTPGet w (orgsURL r.m) r.m.Token).1 = .ok body ∧
      c.Unmarshal body = .ok listing ∧
      listing.find? (fun o => o.Entity.Name = org.Entity.Name) = some org) :
    (updateUsers c org role groupName r).1 = none ∧
    (updateUsers c org role groupName r).2.log =
      r.log ++ ([Call.GetUserIDs groupName, Call.ListUsers]
        ++ membersCalls ToLower r.m uaacUsers org role members) ∧
    (updateUsers c org role groupName r).2.world =
      replay c ([Call.GetUserIDs groupName, Call.ListUsers]
        ++ membersCalls ToLower r.m uaacUsers org role members) r.world ∧
    (∀ u : ldap.User, members = [u] → uaacUsers (ToLower u.UserID) = none →
      (updateUsers c org role groupName r).2.log =
        r.log ++ [Call.GetUserIDs groupName, Call.ListUsers,
          Call.CreateUser u.UserID u.Email u.UserDN,
          Call.HTTPGet (orgsURL r.m) r.m.Token,
          Call.HTTPPut ("https://api." ++ r.m.SysDomain ++ "/v2/organizations/"
            ++ org.MetaData.GUID ++ "/users") r.m.Token (usernameBody u.UserID),
          Call.HTTPPut ("https://api." ++ r.m.SysDomain ++ "/v2/organizations/"
            ++ org.MetaData.GUID ++ "/" ++ role) r.m.Token (usernameBody u.UserID)] ∧
      (updateUsers c org role groupName r).2.world =
        replay c [Call.GetUserIDs groupName, Call.ListUsers,
          Call.CreateUser u.UserID u.Email u.UserDN,
          Call.HTTPGet (orgsURL r.m) r.m.Token,
          Call.HTTPPut ("https://api." ++ r.m.SysDomain ++ "/v2/organizations/"
            ++ org.MetaData.GUID ++ "/users") r.m.Token (usernameBody u.UserID),
          Call.HTTPPut ("https://api." ++ r.m.SysDomain ++ "/v2/organizations/"
            ++ org.MetaData.GUID ++ "/" ++ role) r.m.Token (usernameBody u.UserID)]
          r.world) := by
  have hd : c.GetUserIDs r.world groupName = (.ok members, (c.GetUserIDs r.world groupName).2) :=
    Prod.ext hdir rfl
  have hl : c.ListUsers (c.GetUserIDs r.world groupName).2 =
      (.ok uaacUsers, (c.ListUsers (c.GetUserIDs r.world groupName).2).2) := Prod.ext hlist rfl
  obtain ⟨r1, e1, l1, w1⟩ := loop_ok ToLower c org role uaacUsers r.m hcreate hput hget members
    hcase
    { r with world := (c.ListUsers (c.GetUserIDs r.world groupName).2).2,
             log := r.log ++ [.GetUserIDs groupName, .ListUsers] } rfl rfl
  have hrun : updateUsers c org role groupName r = (none, r1) := by
    unfold updateUsers
    rw [if_pos hname, hd]
    simp only []
    rw [hl]
    simp only []
    exact e1
  have hlog : r1.log = r.log ++ ([Call.GetUserIDs groupName, Call.ListUsers]
      ++ membersCalls ToLower r.m uaacUsers org role members) := by
    rw [l1]
    simp
  have hworld : r1.world = replay c ([Call.GetUserIDs groupName, Call.ListUsers]
      ++ membersCalls ToLower r.m uaacUsers org role members) r.world := by
    rw [w1, replay_append]
    simp [replay, Call.issue]
  refine ⟨by rw [hrun], by rw [hrun, hlog], by rw [hrun, hworld], ?_⟩
  intro u hu hmiss
  rw [hrun, hlog, hworld, hu]
  simp [membersCalls, memberCalls, hmiss, usersURL, roleURL]

/-- Witness of C5: the scenario of the specification, on the platform that records the
calls it receives. The group `admins` has the single member `bob`, the account cache is
empty, and the role `managers` is reconciled for `acme`: the collaborators have received the
directory query, the account listing, one creation, the listing of organizations, the
membership PUT and the role PUT, in this order, and these are the calls logged. -/
theorem updateUsers_call_order_witness :
    (updateUsers (recordingPlatform (fun _ => [⟨"bob", "b@x.com", "cn=bob"⟩]) GoMap.empty
        [acme] (fun _ => none)) acme "managers" "admins" ⟨exampleManager, [], []⟩).1 = none ∧
    (updateUsers (recordingPlatform (fun _ => [⟨"bob", "b@x.com", "cn=bob"⟩]) GoMap.empty
        [acme] (fun _ => none)) acme "managers" "admins" ⟨exampleManager, [], []⟩).2.log =
      [Call.GetUserIDs "admins", Call.ListUsers, Call.CreateUser "bob" "b@x.com" "cn=bob",
        Call.HTTPGet "https://api.example.com/v2/organizations" "token",
        Call.HTTPPut "https://api.example.com/v2/organizations/guid-acme/users" "token"
          "\x7b\"username\": \"bob\"\x7d",
        Call.HTTPPut "https://api.example.com/v2/organizations/guid-acme/managers" "token"
          "\x7b\"username\": \"bob\"\x7d"] ∧
    (updateUsers (recordingPlatform (fun _ => [⟨"bob", "b@x.com", "cn=bob"⟩]) GoMap.empty
        [acme] (fun _ => none)) acme "managers" "admins" ⟨exampleManager, [], []⟩).2.world =
      [Call.GetUserIDs "admins", Call.ListUsers, Call.CreateUser "bob" "b@x.com" "cn=bob",
        Call.HTTPGet "https://api.example.com/v2/organizations" "token",
        Call.HTTPPut "https://api.example.com/v2/organizations/guid-acme/users" "token"
          "\x7b\"username\": \"bob\"\x7d",
        Call.HTTPPut "https://api.example.com/v2/organizations/guid-acme/managers" "token"
          "\x7b\"username\": \"bob\"\x7d"] := by
  have h := updateUsers_call_order asciiToLower
    (recordingPlatform (fun _ => [⟨"bob", "b@x.com", "cn=bob"⟩]) GoMap.empty [acme]
      (fun _ => none)) acme "managers" "admins" ⟨exampleManager, [], []⟩
    [⟨"bob", "b@x.com", "cn=bob"⟩] GoMap.empty
    (by decide) rfl rfl (fun _ _ => rfl) (fun _ _ _ _ => rfl) (fun _ _ _ _ => rfl)
    (fun _ => ⟨renderResources [acme], [acme], rfl, rfl, by decide⟩)
  refine ⟨h.1, ?_, by decide⟩
  rw [(h.2.2.2 ⟨"bob", "b@x.com", "cn=bob"⟩ rfl rfl).1]
  decide

theorem loop_append {σ : Type} (c : Collaborators σ) (org : Resource) (role : String)
    (uaacUsers : GoMap String) (pre rest : List ldap.User) :
    ∀ (r r1 : Run σ), updateUsers.loop c org role uaacUsers pre r = (none, r1) →
      updateUsers.loop c org role uaacUsers (pre ++ rest) r =
        updateUsers.loop c org role uaacUsers rest r1 := by
  induction pre with
  | nil =>
    intro r r1 h
    simp only [updateUsers.loop, Prod.mk.injEq, true_and] at h
    subst h
    rfl
  | cons u pre ih =>
    intro r r1 h
    rw [List.cons_append, updateUsers.loop]
    rw [updateUsers.loop] at h
    cases hc : updateUsers.create c uaacUsers u r with
    | mk e1 ra =>
      rw [hc] at h
      cases e1 with
      | some e => simp at h
      | none =>
        simp only [] at h ⊢
        cases ha : addRole c u.UserID role org ra with
        | mk e2 rb =>
          rw [ha] at h
          cases e2 with
          | some e => simp at h
          | none =>
            simp only [] at h ⊢
            exact ih rb r1 h

theorem faithful_trans {σ : Type} (c : Collaborators σ) (r r1 r2 : Run σ)
    (h1 : ∃ calls, r1.log = r.log ++ calls ∧ r1.world = replay c calls r.world)
    (h2 : ∃ calls, r2.log = r1.log ++ calls ∧ r2.world = replay c calls r1.world) :
    ∃ calls, r2.log = r.log ++ calls ∧ r2.world = replay c calls r.world := by
  obtain ⟨a, la, wa⟩ := h1
  obtain ⟨b, lb, wb⟩ := h2
  exact ⟨a ++ b, by rw [lb, la, List.append_assoc], by rw [wb, wa, replay_append]⟩

theorem AddUser_faithful {σ : Type} (c : Collaborators σ) (orgName userName : String)
    (r : Run σ) :
    ∃ calls, (AddUser c orgName userName r).2.log = r.log ++ calls ∧
      (AddUser c orgName userName r).2.world = replay c calls r.world := by
  cases hg : (c.HTTPGet r.world (orgsURL r.m) r.m.Token).1 with
  | error e =>
    rw [AddUser_get_refused c orgName userName r e hg]
    exact ⟨_, rfl, rfl⟩
  | ok body =>
    cases hu : c.Unmarshal body with
    | error e =>
      rw [AddUser_decode_fails c orgName userName r body e hg hu]
      exact ⟨_, rfl, rfl⟩
    | ok listing =>
      rw [AddUser_put c orgName userName r body listing hg hu]
      exact ⟨_, rfl, rfl⟩

theorem addRole_faithful {σ : Type} (c : Collaborators σ) (org : Resource)
    (role userName : String) (r : Run σ) :
    ∃ calls, (addRole c userName role org r).2.log = r.log ++ calls ∧
      (addRole c userName role org r).2.world = replay c calls r.world := by
  have h1 := AddUser_faithful c org.Entity.Name userName r
  unfold addRole
  simp only []
  cases ha : AddUser c org.Entity.Name userName r with
  | mk e1 r1 =>
    rw [ha] at h1
    cases e1 with
    | some e => exact h1
    | none =>
      refine faithful_trans c r r1 _ h1 ?_
      exact ⟨[Call.HTTPPut (roleURL r1.m org role) r1.m.Token (usernameBody userName)],
        rfl, rfl⟩

theorem create_faithful {σ : Type} (c : Collaborators σ) (uaacUsers : GoMap String)
    (mem : ldap.User) (r : Run σ) :
    ∃ calls, (updateUsers.create c uaacUsers mem r).2.log = r.log ++ calls ∧
      (updateUsers.create c uaacUsers mem r).2.world = replay c calls r.world := by
  unfold updateUsers.create
  by_cases hs : (uaacUsers mem.UserID).isSome = true
  · rw [if_pos hs]
    exact ⟨[], by simp, rfl⟩
  · rw [if_neg hs]
    exact ⟨[Call.CreateUser mem.UserID mem.Email mem.UserDN], rfl, rfl⟩

theorem loop_faithful {σ : Type} (c : Collaborators σ) (org : Resource) (role : String)
    (uaacUsers : GoMap String) (members : List ldap.User) :
    ∀ r : Run σ, ∃ calls,
      (updateUsers.loop c org role uaacUsers members r).2.log = r.log ++ calls ∧
      (updateUsers.loop c org role uaacUsers members r).2.world = replay c calls r.world := by
  induction members with
  | nil => intro r; exact ⟨[], by simp [updateUsers.loop], rfl⟩
  | cons u rest ih =>
    intro r
    have h1 := create_faithful c uaacUsers u r
    rw [updateUsers.loop]
    cases hc : updateUsers.create c uaacUsers u r with
    | mk e1 r1 =>
      rw [hc] at h1
      cases e1 with
      | some e => exact h1
      | none =>
        simp only []
        have h2 := addRole_faithful c org role u.UserID r1
        cases ha : addRole c u.UserID role org r1 with
        | mk e2 r2 =>
          rw [ha] at h2
          cases e2 with
          | some e => exact faithful_trans c r r1 r2 h1 h2
          | none =>
            simp only []
            exact faithful_trans c r r2 _ (faithful_trans c r r1 r2 h1 h2) (ih r2)

/-- C6: with a non-empty group name, a directory that returns `pre ++ mem :: post` and a
successful account listing, when the members of `pre` are processed without error and a step
fails for `mem`, `updateUsers` returns the error of that step and ends in the state the
failing call left: the calls issued to the collaborators and logged for `mem` end with the
failing one, and nothing is issued for the members of `post`. The failing step is
* the account creation, refused by the collaborator on a cache miss; or,
* once the account step has passed (cache hit, or creation accepted), the membership add:
  the listing of organizations is refused, or its body does not decode, or the membership
  PUT is refused; or,
* once the membership PUT is accepted, the role PUT, refused.
In each case the state of the world is the one the collaborators hand back when the calls
up to the failing one are issued in order. The calls for `pre` are likewise the calls
issued: the world after `pre` is the replay of what was logged. -/
theorem updateUsers_fail_fast {σ : Type} (c : Collaborators σ) (org : Resource)
    (role groupName : String) (r : Run σ) (pre : List ldap.User) (mem : ldap.User)
    (post : List ldap.User) (uaacUsers : GoMap String) (r3 : Run σ)
    (hname : groupName ≠ "")
    (hdir : (c.GetUserIDs r.world groupName).1 = .ok (pre ++ mem :: post))
    (hlist : (c.ListUsers (c.GetUserIDs r.world groupName).2).1 = .ok uaacUsers)
    (hpre : updateUsers.loop c org role uaacUsers pre
      (r.after c [.GetUserIDs groupName, .ListUsers]) = (none, r3)) :
    (∃ calls, r3.log = r.log ++ ([Call.GetUserIDs groupName, Call.ListUsers] ++ calls) ∧
      r3.world = replay c ([Call.GetUserIDs groupName, Call.ListUsers] ++ calls) r.world) ∧
    (∀ e, uaacUsers mem.UserID = none →
      (c.CreateUser r3.world mem.UserID mem.Email mem.UserDN).1 = some e →
      updateUsers c org role groupName r =
        (some (.collaborator e),
          r3.after c [Call.CreateUser mem.UserID mem.Email mem.UserDN])) ∧
    (∀ e,
      ((uaacUsers mem.UserID).isSome = true ∨
        (c.CreateUser r3.world mem.UserID mem.Email mem.UserDN).1 = none) →
      (c.HTTPGet (replay c (createCalls uaacUsers mem) r3.world) (orgsURL r3.m)
        r3.m.Token).1 = .error e →
      updateUsers c org role groupName r =
        (some (.collaborator e),
          r3.after c (createCalls uaacUsers mem ++ [Call.HTTPGet (orgsURL r3.m) r3.m.Token]))) ∧
    (∀ body e,
      ((uaacUsers mem.UserID).isSome = true ∨
        (c.CreateUser r3.world mem.UserID mem.Email mem.UserDN).1 = none) →
      (c.HTTPGet (replay c (createCalls uaacUsers mem) r3.world) (orgsURL r3.m)
        r3.m.Token).1 = .ok body →
      c.Unmarshal body = .error e →
      updateUsers c org role groupName r =
        (some (.collaborator e),
          r3.after c (createCalls uaacUsers mem ++ [Call.HTTPGet (orgsURL r3.m) r3.m.Token]))) ∧
    (∀ body listing e,
      ((uaacUsers mem.UserID).isSome = true ∨
        (c.CreateUser r3.world mem.UserID mem.Email mem.UserDN).1 = none) →
      (c.HTTPGet (replay c (createCalls uaacUsers mem) r3.world) (orgsURL r3.m)
        r3.m.Token).1 = .ok body →
      c.Unmarshal body = .ok listing →
      (c.HTTPPut
        (replay c (createCalls uaacUsers mem ++ [Call.HTTPGet (orgsURL r3.m) r3.m.Token])
          r3.world)
        (usersURL r3.m
          ((listing.find? (fun o => o.Entity.Name = org.Entity.Name)).getD Resource.zero))
        r3.m.Token (usernameBody mem.UserID)).1 = some e →
      updateUsers c org role groupName r =
        (some (.collaborator e),
          { (r3.after c (createCalls uaacUsers mem ++
              [Call.HTTPGet (orgsURL r3.m) r3.m.Token,
               Call.HTTPPut (usersURL r3.m
                 ((listing.find? (fun o => o.Entity.Name = org.Entity.Name)).getD
                   Resource.zero))
                 r3.m.Token (usernameBody mem.UserID)])) with
            m := { r3.m with Orgs := listing } })) ∧
    (∀ body listing e,
      ((uaacUsers mem.UserID).isSome = true ∨
        (c.CreateUser r3.world mem.UserID mem.Email mem.UserDN).1 = none) →
      (c.HTTPGet (replay c (createCalls uaacUsers mem) r3.world) (orgsURL r3.m)
        r3.m.Token).1 = .ok body →
      c.Unmarshal body = .ok listing →
      (c.HTTPPut
        (replay c (createCalls uaacUsers mem ++ [Call.HTTPGet (orgsURL r3.m) r3.m.Token])
          r3.world)
        (usersURL r3.m
          ((listing.find? (fun o => o.Entity.Name = org.Entity.Name)).getD Resource.zero))
        r3.m.Token (usernameBody mem.UserID)).1 = none →
      (c.HTTPPut
        (replay c (createCalls uaacUsers mem ++
          [Call.HTTPGet (orgsURL r3.m) r3.m.Token,
           Call.HTTPPut (usersURL r3.m
             ((listing.find? (fun o => o.Entity.Name = org.Entity.Name)).getD Resource.zero))
             r3.m.Token (usernameBody mem.UserID)]) r3.world)
        (roleURL r3.m org role) r3.m.Token (usernameBody mem.UserID)).1 = some e →
      updateUsers c org role groupName r =
        (some (.collaborator e),
          { (r3.after c (createCalls uaacUsers mem ++
              [Call.HTTPGet (orgsURL r3.m) r3.m.Token,
               Call.HTTPPut (usersURL r3.m
                 ((listing.find? (fun o => o.Entity.Name = org.Entity.Name)).getD
                   Resource.zero))
                 r3.m.Token (usernameBody mem.UserID),
               Call.HTTPPut (roleURL r3.m org role) r3.m.Token (usernameBody mem.UserID)])) with
            m := { r3.m with Orgs := listing } })) := by
  have hd : c.GetUserIDs r.world groupName =
      (.ok (pre ++ mem :: post), (c.GetUserIDs r.world groupName).2) := Prod.ext hdir rfl
  have hl : c.ListUsers (c.GetUserIDs r.world groupName).2 =
      (.ok uaacUsers, (c.ListUsers (c.GetUserIDs r.world groupName).2).2) := Prod.ext hlist rfl
  have hrun : updateUsers c org role groupName r =
      updateUsers.loop c org role uaacUsers (mem :: post) r3 := by
    unfold updateUsers
    rw [if_pos hname, hd]
    simp only []
    rw [hl]
    simp only []
    exact loop_append c org role uaacUsers pre (mem :: post) _ r3 hpre
  have hfaith := loop_faithful c org role uaacUsers pre
    (r.after c [.GetUserIDs groupName, .ListUsers])
  rw [hpre] at hfaith
  refine ⟨?_, ?_, ?_, ?_, ?_, ?_⟩
  · obtain ⟨calls, hlog, hworld⟩ := hfaith
    refine ⟨calls, ?_, ?_⟩
    · rw [hlog]
      simp [Run.after]
    · rw [hworld, replay_append]
      simp [Run.after]
  · intro e hmiss hfail
    rw [hrun, updateUsers.loop, create_refused c uaacUsers mem r3 e hmiss hfail]
  · intro e hacct hget
    rw [hrun, updateUsers.loop, create_pass c uaacUsers mem r3 hacct]
    simp only [addRole]
    rw [AddUser_get_refused c org.Entity.Name mem.UserID _ e hget]
    simp only [Run.after_after]
    rfl
  · intro body e hacct hget hdec
    rw [hrun, updateUsers.loop, create_pass c uaacUsers mem r3 hacct]
    simp only [addRole]
    rw [AddUser_decode_fails c org.Entity.Name mem.UserID _ body e hget hdec]
    simp only [Run.after_after]
    rfl
  · intro body listing e hacct hget hdec hput
    rw [hrun, updateUsers.loop, create_pass c uaacUsers mem r3 hacct]
    simp only [addRole]
    rw [AddUser_put c org.Entity.Name mem.UserID _ body listing hget hdec]
    rw [replay_append] at hput
    simp only [Run.after] at hput ⊢
    rw [hput]
    simp [replay_append]
  · intro body listing e hacct hget hdec hput hrole
    rw [hrun, updateUsers.loop, create_pass c uaacUsers mem r3 hacct]
    simp only []
    rw [replay_append] at hput hrole
    rw [addRole_put c org role mem.UserID _ body listing hget hdec hput]
    simp only [Run.after] at hrole ⊢
    rw [hrole]
    simp [replay_append]

/-- Witness of C6, on the platform that records the calls it receives: the directory returns
`alice`, `bob`, `carol` and no account exists. When the membership PUT for `bob` is refused,
`updateUsers` returns that error; the collaborators have received the calls for `alice` in
full, then for `bob` the creation, the listing and the refused PUT, and nothing after it:
no role PUT for `bob` and no call for `carol`. Likewise when the creation of the account of
`bob` or the role PUT for `bob` is refused. -/
theorem updateUsers_fail_fast_witness :
    ((updateUsers (recordingPlatform (fun _ => exampleMembers) GoMap.empty [acme]
        (refuseOnly (Call.HTTPPut "https://api.example.com/v2/organizations/guid-acme/users"
          "token" "\x7b\"username\": \"bob\"\x7d") "membership refused"))
        acme "managers" "admins" ⟨exampleManager, [], []⟩).1
      = some (.collaborator "membership refused") ∧
    (updateUsers (recordingPlatform (fun _ => exampleMembers) GoMap.empty [acme]
        (refuseOnly (Call.HTTPPut "https://api.example.com/v2/organizations/guid-acme/users"
          "token" "\x7b\"username\": \"bob\"\x7d") "membership refused"))
        acme "managers" "admins" ⟨exampleManager, [], []⟩).2.world =
      [Call.GetUserIDs "admins", Call.ListUsers, Call.CreateUser "alice" "a@x.com" "cn=alice",
        Call.HTTPGet "https://api.example.com/v2/organizations" "token",
        Call.HTTPPut "https://api.example.com/v2/organizations/guid-acme/users" "token"
          "\x7b\"username\": \"alice\"\x7d",
        Call.HTTPPut "https://api.example.com/v2/organizations/guid-acme/managers" "token"
          "\x7b\"username\": \"alice\"\x7d",
        Call.CreateUser "bob" "b@x.com" "cn=bob",
        Call.HTTPGet "https://api.example.com/v2/organizations" "token",
        Call.HTTPPut "https://api.example.com/v2/organizations/guid-acme/users" "token"
          "\x7b\"username\": \"bob\"\x7d"] ∧
    (updateUsers (recordingPlatform (fun _ => exampleMembers) GoMap.empty [acme]
        (refuseOnly (Call.HTTPPut "https://api.example.com/v2/organizations/guid-acme/users"
          "token" "\x7b\"username\": \"bob\"\x7d") "membership refused"))
        acme "managers" "admins" ⟨exampleManager, [], []⟩).2.log =
      [Call.GetUserIDs "admins", Call.ListUsers, Call.CreateUser "alice" "a@x.com" "cn=alice",
        Call.HTTPGet "https://api.example.com/v2/organizations" "token",
        Call.HTTPPut "https://api.example.com/v2/organizations/guid-acme/users" "token"
          "\x7b\"username\": \"alice\"\x7d",
        Call.HTTPPut "https://api.example.com/v2/organizations/guid-acme/managers" "token"
          "\x7b\"username\": \"alice\"\x7d",
        Call.CreateUser "bob" "b@x.com" "cn=bob",
        Call.HTTPGet "https://api.example.com/v2/organizations" "token",
        Call.HTTPPut "https://api.example.com/v2/organizations/guid-acme/users" "token"
          "\x7b\"username\": \"bob\"\x7d"]) ∧
    ((updateUsers (recordingPlatform (fun _ => exampleMembers) GoMap.empty [acme]
        (refuseOnly (Call.CreateUser "bob" "b@x.com" "cn=bob") "create refused"))
        acme "managers" "admins" ⟨exampleManager, [], []⟩).1
      = some (.collaborator "create refused") ∧
    (updateUsers (recordingPlatform (fun _ => exampleMembers) GoMap.empty [acme]
        (refuseOnly (Call.CreateUser "bob" "b@x.com" "cn=bob") "create refused"))
        acme "managers" "admins" ⟨exampleManager, [], []⟩).2.world =
      [Call.GetUserIDs "admins", Call.ListUsers, Call.CreateUser "alice" "a@x.com" "cn=alice",
        Call.HTTPGet "https://api.example.com/v2/organizations" "token",
        Call.HTTPPut "https://api.example.com/v2/organizations/guid-acme/users" "token"
          "\x7b\"username\": \"alice\"\x7d",
        Call.HTTPPut "https://api.example.com/v2/organizations/guid-acme/managers" "token"
          "\x7b\"username\": \"alice\"\x7d",
        Call.CreateUser "bob" "b@x.com" "cn=bob"]) ∧
    ((updateUsers (recordingPlatform (fun _ => exampleMembers) GoMap.empty [acme]
        (refuseOnly (Call.HTTPPut "https://api.example.com/v2/organizations/guid-acme/managers"
          "token" "\x7b\"username\": \"bob\"\x7d") "role refused"))
        acme "managers" "admins" ⟨exampleManager, [], []⟩).1
      = some (.collaborator "role refused") ∧
    (updateUsers (recordingPlatform (fun _ => exampleMembers) GoMap.empty [acme]
        (refuseOnly (Call.HTTPPut "https://api.example.com/v2/organizations/guid-acme/managers"
          "token" "\x7b\"username\": \"bob\"\x7d") "role refused"))
        acme "managers" "admins" ⟨exampleManager, [], []⟩).2.world =
      [Call.GetUserIDs "admins", Call.ListUsers, Call.CreateUser "alice" "a@x.com" "cn=alice",
        Call.HTTPGet "https://api.example.com/v2/organizations" "token",
        Call.HTTPPut "https://api.example.com/v2/organizations/guid-acme/users" "token"
          "\x7b\"username\": \"alice\"\x7d",
        Call.HTTPPut "https://api.example.com/v2/organizations/guid-acme/managers" "token"
          "\x7b\"username\": \"alice\"\x7d",
        Call.CreateUser "bob" "b@x.com" "cn=bob",
        Call.HTTPGet "https://api.example.com/v2/organizations" "token",
        Call.HTTPPut "https://api.example.com/v2/organizations/guid-acme/users" "token"
          "\x7b\"username\": \"bob\"\x7d",
        Call.HTTPPut "https://api.example.com/v2/organizations/guid-acme/managers" "token"
          "\x7b\"username\": \"bob\"\x7d"]) := by
  refine ⟨?_, ?_, ?_⟩
  · have h := (updateUsers_fail_fast
      (recordingPlatform (fun _ => exampleMembers) GoMap.empty [acme]
        (refuseOnly (Call.HTTPPut "https://api.example.com/v2/organizations/guid-acme/users"
          "token" "\x7b\"username\": \"bob\"\x7d") "membership refused"))
      acme "managers" "admins" ⟨exampleManager, [], []⟩
      [⟨"alice", "a@x.com", "cn=alice"⟩] ⟨"bob", "b@x.com", "cn=bob"⟩
      [⟨"carol", "c@x.com", "cn=carol"⟩] GoMap.empty
      (updateUsers.loop (recordingPlatform (fun _ => exampleMembers) GoMap.empty [acme]
          (refuseOnly (Call.HTTPPut "https://api.example.com/v2/organizations/guid-acme/users"
            "token" "\x7b\"username\": \"bob\"\x7d") "membership refused"))
        acme "managers" GoMap.empty [⟨"alice", "a@x.com", "cn=alice"⟩]
        (Run.after (recordingPlatform (fun _ => exampleMembers) GoMap.empty [acme]
          (refuseOnly (Call.HTTPPut "https://api.example.com/v2/organizations/guid-acme/users"
            "token" "\x7b\"username\": \"bob\"\x7d") "membership refused"))
          ⟨exampleManager, [], []⟩ [Call.GetUserIDs "admins", Call.ListUsers])).2
      (by decide) rfl rfl (Prod.ext (by decide) rfl)).2.2.2.2.1
      (renderResources [acme]) [acme] "membership refused" (Or.inr (by decide)) rfl rfl
      (by decide)
    exact ⟨by rw [h], by decide, by decide⟩
  · have h := (updateUsers_fail_fast
      (recordingPlatform (fun _ => exampleMembers) GoMap.empty [acme]
        (refuseOnly (Call.CreateUser "bob" "b@x.com" "cn=bob") "create refused"))
      acme "managers" "admins" ⟨exampleManager, [], []⟩
      [⟨"alice", "a@x.com", "cn=alice"⟩] ⟨"bob", "b@x.com", "cn=bob"⟩
      [⟨"carol", "c@x.com", "cn=carol"⟩] GoMap.empty
      (updateUsers.loop (recordingPlatform (fun _ => exampleMembers) GoMap.empty [acme]
          (refuseOnly (Call.CreateUser "bob" "b@x.com" "cn=bob") "create refused"))
        acme "managers" GoMap.empty [⟨"alice", "a@x.com", "cn=alice"⟩]
        (Run.after (recordingPlatform (fun _ => exampleMembers) GoMap.empty [acme]
          (refuseOnly (Call.CreateUser "bob" "b@x.com" "cn=bob") "create refused"))
          ⟨exampleManager, [], []⟩ [Call.GetUserIDs "admins", Call.ListUsers])).2
      (by decide) rfl rfl (Prod.ext (by decide) rfl)).2.1
      "create refused" rfl (by decide)
    exact ⟨by rw [h], by decide⟩
  · have h := (updateUsers_fail_fast
      (recordingPlatform (fun _ => exampleMembers) GoMap.empty [acme]
        (refuseOnly (Call.HTTPPut "https://api.example.com/v2/organizations/guid-acme/managers"
          "token" "\x7b\"username\": \"bob\"\x7d") "role refused"))
      acme "managers" "admins" ⟨exampleManager, [], []⟩
      [⟨"alice", "a@x.com", "cn=alice"⟩] ⟨"bob", "b@x.com", "cn=bob"⟩
      [⟨"carol", "c@x.com", "cn=carol"⟩] GoMap.empty
      (updateUsers.loop (recordingPlatform (fun _ => exampleMembers) GoMap.empty [acme]
          (refuseOnly (Call.HTTPPut
            "https://api.example.com/v2/organizations/guid-acme/managers"
            "token" "\x7b\"username\": \"bob\"\x7d") "role refused"))
        acme "managers" GoMap.empty [⟨"alice", "a@x.com", "cn=alice"⟩]
        (Run.after (recordingPlatform (fun _ => exampleMembers) GoMap.empty [acme]
          (refuseOnly (Call.HTTPPut
            "https://api.example.com/v2/organizations/guid-acme/managers"
            "token" "\x7b\"username\": \"bob\"\x7d") "role refused"))
          ⟨exampleManager, [], []⟩ [Call.GetUserIDs "admins", Call.ListUsers])).2
      (by decide) rfl rfl (Prod.ext (by decide) rfl)).2.2.2.2.2
      (renderResources [acme]) [acme] "role refused" (Or.inr (by decide)) rfl rfl
      (by decide) (by decide)
    exact ⟨by rw [h], by decide⟩

/-- C3, evaluated: the directory member `Bob` and the existing account `bob`. The lowercased
user ID of the member is a key of the account cache that the lowercasing index of
`ListUsers` builds, the lookup of the user ID as the directory spells it misses, and
`updateUsers` issues the account creation for `Bob`. -/
theorem updateUsers_creates_account_that_exists_in_lowercase :
    (uaa.ListUsers.index asciiToLower [⟨"1", "bob", "uaa"⟩] (asciiToLower "Bob")).isSome = true ∧
    uaa.ListUsers.index asciiToLower [⟨"1", "bob", "uaa"⟩] "Bob" = none ∧
    (updateUsers (accountPlatform (fun _ => [⟨"Bob", "b@x.com", "cn=Bob"⟩]) [acme] []
        (fun _ => false) (fun _ => false)) acme "managers" "admins"
        ⟨exampleManager, [⟨"1", "bob", "uaa"⟩], []⟩).2.log =
      [Call.GetUserIDs "admins", Call.ListUsers, Call.CreateUser "Bob" "b@x.com" "cn=Bob",
        Call.HTTPGet "https://api.example.com/v2/organizations" "token",
        Call.HTTPPut "https://api.example.com/v2/organizations/guid-acme/users" "token"
          "\x7b\"username\": \"Bob\"\x7d",
        Call.HTTPPut "https://api.example.com/v2/organizations/guid-acme/managers" "token"
          "\x7b\"username\": \"Bob\"\x7d"] := by
  decide

/-- C4, evaluated: two runs of `updateUsers` in succession for the directory member `Bob`,
on a platform where a successful account creation adds the account to what the account
listing returns and nothing else changes. Both runs return nil; the second run, started on
the state the first one left (with an empty log), issues the account creation for `Bob`
again and leaves two accounts. -/
theorem updateUsers_second_run_creates_again :
    (updateUsers (accountPlatform (fun _ => [⟨"Bob", "b@x.com", "cn=Bob"⟩]) [acme] []
        (fun _ => false) (fun _ => false)) acme "managers" "admins"
        ⟨exampleManager, [], []⟩).1 = none ∧
    (updateUsers (accountPlatform (fun _ => [⟨"Bob", "b@x.com", "cn=Bob"⟩]) [acme] []
        (fun _ => false) (fun _ => false)) acme "managers" "admins"
        ⟨exampleManager, [], []⟩).2.world = [⟨"guid-of-Bob", "Bob", "ldap"⟩] ∧
    (updateUsers (accountPlatform (fun _ => [⟨"Bob", "b@x.com", "cn=Bob"⟩]) [acme] []
        (fun _ => false) (fun _ => false)) acme "managers" "admins"
        { (updateUsers (accountPlatform (fun _ => [⟨"Bob", "b@x.com", "cn=Bob"⟩]) [acme] []
            (fun _ => false) (fun _ => false)) acme "managers" "admins"
            ⟨exampleManager, [], []⟩).2 with log := [] }).1 = none ∧
    (updateUsers (accountPlatform (fun _ => [⟨"Bob", "b@x.com", "cn=Bob"⟩]) [acme] []
        (fun _ => false) (fun _ => false)) acme "managers" "admins"
        { (updateUsers (accountPlatform (fun _ => [⟨"Bob", "b@x.com", "cn=Bob"⟩]) [acme] []
            (fun _ => false) (fun _ => false)) acme "managers" "admins"
            ⟨exampleManager, [], []⟩).2 with log := [] }).2.log =
      [Call.GetUserIDs "admins", Call.ListUsers, Call.CreateUser "Bob" "b@x.com" "cn=Bob",
        Call.HTTPGet "https://api.example.com/v2/organizations" "token",
        Call.HTTPPut "https://api.example.com/v2/organizations/guid-acme/users" "token"
          "\x7b\"username\": \"Bob\"\x7d",
        Call.HTTPPut "https://api.example.com/v2/organizations/guid-acme/managers" "token"
          "\x7b\"username\": \"Bob\"\x7d"] ∧
    (updateUsers (accountPlatform (fun _ => [⟨"Bob", "b@x.com", "cn=Bob"⟩]) [acme] []
        (fun _ => false) (fun _ => false)) acme "managers" "admins"
        { (updateUsers (accountPlatform (fun _ => [⟨"Bob", "b@x.com", "cn=Bob"⟩]) [acme] []
            (fun _ => false) (fun _ => false)) acme "managers" "admins"
            ⟨exampleManager, [], []⟩).2 with log := [] }).2.world =
      [⟨"guid-of-Bob", "Bob", "ldap"⟩, ⟨"guid-of-Bob", "Bob", "ldap"⟩] := by
  decide

/-- C9, evaluated: the listing of organizations holds `other` only and `acme` is looked up.
`FindOrg` returns the zero `Resource` and a nil error, and `AddUser`, which goes on when the
error is nil, sends its PUT to the URL with an empty guid. -/
theorem FindOrg_miss_returns_nil_error :
    (FindOrg (accountPlatform (fun _ => []) [⟨⟨"guid-other"⟩, ⟨"other"⟩⟩] []
        (fun _ => false) (fun _ => false)) "acme" ⟨exampleManager, [], []⟩).1 = Resource.zero ∧
    (FindOrg (accountPlatform (fun _ => []) [⟨⟨"guid-other"⟩, ⟨"other"⟩⟩] []
        (fun _ => false) (fun _ => false)) "acme" ⟨exampleManager, [], []⟩).2.1 = none ∧
    (AddUser (accountPlatform (fun _ => []) [⟨⟨"guid-other"⟩, ⟨"other"⟩⟩] []
        (fun _ => false) (fun _ => false)) "acme" "bob" ⟨exampleManager, [], []⟩).2.log =
      [Call.HTTPGet "https://api.example.com/v2/organizations" "token",
        Call.HTTPPut "https://api.example.com/v2/organizations//users" "token"
          "\x7b\"username\": \"bob\"\x7d"] := by
  decide

/-- C10, evaluated: the configuration names `acme`, the listing of organizations is empty,
and the creation request is refused. `CreateOrg` returns the error of the refused request,
and `CreateOrgs`, which issued that request, returns nil. -/
theorem CreateOrgs_swallows_creation_error :
    (CreateOrg (accountPlatform (fun _ => []) [] ["acme"] (fun _ => true) (fun _ => false))
        "acme" ⟨exampleManager, [], []⟩).2.1 = some (.collaborator "post refused") ∧
    (CreateOrgs (accountPlatform (fun _ => []) [] ["acme"] (fun _ => true) (fun _ => false))
        "config" ⟨exampleManager, [], []⟩).1 = none ∧
    (CreateOrgs (accountPlatform (fun _ => []) [] ["acme"] (fun _ => true) (fun _ => false))
        "config" ⟨exampleManager, [], []⟩).2.log =
      [Call.LoadFile "config/orgs.yml",
        Call.HTTPGet "https://api.example.com/v2/organizations" "token",
        Call.HTTPPost "https://api.example.com/v2/organizations" "token"
          "\x7b\"name\":\"acme\"\x7d"] := by
  decide

theorem FindOrg_never_reports_a_miss {σ : Type} (c : Collaborators σ) (orgName : String)
    (r r1 : Run σ) (h : fetchOrgs c r = (none, r1)) :
    FindOrg c orgName r =
      ((r1.m.Orgs.find? (fun o => o.Entity.Name = orgName)).getD Resource.zero, none, r1) := by
  unfold FindOrg
  rw [h]
  simp only [FindOrg.scan_eq_find]

theorem CreateOrgs_returns_nil_after_fetch {σ : Type} (c : Collaborators σ)
    (configDir : String) (r r1 : Run σ) (input : InputOrgs)
    (hload : (c.LoadFile r.world (configDir ++ "/orgs.yml")).1 = .ok input)
    (hfetch : fetchOrgs c
      { r with world := (c.LoadFile r.world (configDir ++ "/orgs.yml")).2,
               log := r.log ++ [.LoadFile (configDir ++ "/orgs.yml")] } = (none, r1)) :
    CreateOrgs c configDir r = (none, CreateOrgs.loop c input.Orgs r1) := by
  have hl : c.LoadFile r.world (configDir ++ "/orgs.yml") =
      (.ok input, (c.LoadFile r.world (configDir ++ "/orgs.yml")).2) := Prod.ext hload rfl
  unfold CreateOrgs
  simp only []
  rw [hl]
  simp only []
  rw [hfetch]

theorem accountPlatform_addRole (directory : String → List ldap.User) (orgs : List Resource)
    (configured : List String) (failPost : String → Bool) (org : Resource)
    (role userName : String) (r : Run (List uaa.User)) :
    ∃ r1, addRole (accountPlatform directory orgs configured failPost (fun _ => false))
        userName role org r = (none, r1) ∧
      r1.world = r.world ∧
      r1.log.filterMap Call.created? = r.log.filterMap Call.created? := by
  unfold addRole AddUser FindOrg fetchOrgs
  simp [accountPlatform, Call.created?]

theorem accountPlatform_create (directory : String → List ldap.User) (orgs : List Resource)
    (configured : List String) (failPost : String → Bool) (uaacUsers : GoMap String)
    (u : ldap.User) (r : Run (List uaa.User)) :
    ∃ r1, updateUsers.create (accountPlatform directory orgs configured failPost
        (fun _ => false)) uaacUsers u r = (none, r1) ∧
      r1.world = r.world ++ (if (uaacUsers u.UserID).isSome then []
        else [⟨"guid-of-" ++ u.UserID, u.UserID, "ldap"⟩]) ∧
      r1.log.filterMap Call.created? = r.log.filterMap Call.created? ++
        (if (uaacUsers u.UserID).isSome then [] else [u.UserID]) := by
  unfold updateUsers.create
  by_cases h : (uaacUsers u.UserID).isSome = true
  · simp [h]
  · simp [h, accountPlatform, Call.created?]

theorem accountPlatform_loop (directory : String → List ldap.User) (orgs : List Resource)
    (configured : List String) (failPost : String → Bool) (org : Resource) (role : String)
    (uaacUsers : GoMap String) (members : List ldap.User) :
    ∀ r : Run (List uaa.User),
      ∃ r1, updateUsers.loop (accountPlatform directory orgs configured failPost
          (fun _ => false)) org role uaacUsers members r = (none, r1) ∧
        r1.world = r.world ++
          (members.filter (fun u => !(uaacUsers u.UserID).isSome)).map
            (fun u => (⟨"guid-of-" ++ u.UserID, u.UserID, "ldap"⟩ : uaa.User)) ∧
        r1.log.filterMap Call.created? = r.log.filterMap Call.created? ++
          (members.filter (fun u => !(uaacUsers u.UserID).isSome)).map (fun u => u.UserID) := by
  induction members with
  | nil => intro r; exact ⟨r, rfl, by simp, by simp⟩
  | cons u rest ih =>
    intro r
    obtain ⟨r1, e1, w1, l1⟩ :=
      accountPlatform_create directory orgs configured failPost uaacUsers u r
    obtain ⟨r2, e2, w2, l2⟩ :=
      accountPlatform_addRole directory orgs configured failPost org role u.UserID r1
    obtain ⟨r3, e3, w3, l3⟩ := ih r2
    refine ⟨r3, ?_, ?_, ?_⟩
    · rw [updateUsers.loop, e1]
      simp only []
      rw [e2]
      simp only []
      exact e3
    · rw [w3, w2, w1]
      cases hu : uaacUsers u.UserID <;> simp [hu, List.filter_cons]
    · rw [l3, l2, l1]
      cases hu : uaacUsers u.UserID <;> simp [hu, List.filter_cons]

theorem accountPlatform_updateUsers (directory : String → List ldap.User)
    (orgs : List Resource) (configured : List String) (failPost : String → Bool)
    (org : Resource) (role groupName : String) (hname : groupName ≠ "")
    (r : Run (List uaa.User)) :
    ∃ r1, updateUsers (accountPlatform directory orgs configured failPost (fun _ => false))
        org role groupName r = (none, r1) ∧
      r1.world = r.world ++
        ((directory groupName).filter
          (fun u => !(uaa.ListUsers.index asciiToLower r.world u.UserID).isSome)).map
          (fun u => (⟨"guid-of-" ++ u.UserID, u.UserID, "ldap"⟩ : uaa.User)) ∧
      r1.log.filterMap Call.created? = r.log.filterMap Call.created? ++
        ((directory groupName).filter
          (fun u => !(uaa.ListUsers.index asciiToLower r.world u.UserID).isSome)).map
          (fun u => u.UserID) := by
  obtain ⟨r1, e1, w1, l1⟩ := accountPlatform_loop directory orgs configured failPost org role
    (uaa.ListUsers.index asciiToLower r.world) (directory groupName)
    { r with log := r.log ++ [.GetUserIDs groupName, .ListUsers] }
  refine ⟨r1, ?_, w1, ?_⟩
  · unfold updateUsers
    rw [if_pos hname]
    exact e1
  · rw [l1]
    simp [Call.created?]

/-- Idempotence where the lookup key needs no normalization: on the account platform with
every call succeeding, when the user names of the accounts and the user IDs of the members
of the group are ASCII (where `asciiToLower` is `strings.ToLower`) and lowercasing leaves
every such user ID unchanged, both runs return nil and the second run, started on the state
the first one left (with an empty log), issues no account creation and leaves the accounts
as they are. -/
theorem updateUsers_idempotent_on_lowercase_ids (directory : String → List ldap.User)
    (orgs : List Resource) (configured : List String) (failPost : String → Bool)
    (org : Resource) (role groupName : String) (r : Run (List uaa.User))
    (_hasciiAccounts : ∀ a ∈ r.world, isASCII a.UserName = true)
    (_hasciiMembers : ∀ u ∈ directory groupName, isASCII u.UserID = true)
    (hlow : ∀ u ∈ directory groupName, asciiToLower u.UserID = u.UserID) :
    (updateUsers (accountPlatform directory orgs configured failPost (fun _ => false))
      org role groupName r).1 = none ∧
    (updateUsers (accountPlatform directory orgs configured failPost (fun _ => false))
      org role groupName
      { (updateUsers (accountPlatform directory orgs configured failPost (fun _ => false))
          org role groupName r).2 with log := [] }).1 = none ∧
    (updateUsers (accountPlatform directory orgs configured failPost (fun _ => false))
      org role groupName
      { (updateUsers (accountPlatform directory orgs configured failPost (fun _ => false))
          org role groupName r).2 with log := [] }).2.log.filterMap Call.created? = [] ∧
    (updateUsers (accountPlatform directory orgs configured failPost (fun _ => false))
      org role groupName
      { (updateUsers (accountPlatform directory orgs configured failPost (fun _ => false))
          org role groupName r).2 with log := [] }).2.world =
      (updateUsers (accountPlatform directory orgs configured failPost (fun _ => false))
        org role groupName r).2.world := by
  by_cases hname : groupName = ""
  · subst hname
    simp [updateUsers]
  · obtain ⟨r1, e1, w1, _⟩ := accountPlatform_updateUsers directory orgs configured failPost
      org role groupName hname r
    obtain ⟨r2, e2, w2, l2⟩ := accountPlatform_updateUsers directory orgs configured failPost
      org role groupName hname { r1 with log := [] }
    have hnone : (directory groupName).filter
        (fun u => !(uaa.ListUsers.index asciiToLower r1.world u.UserID).isSome) = [] := by
      rw [List.filter_eq_nil_iff]
      intro u hu
      have hk : (uaa.ListUsers.index asciiToLower r1.world u.UserID).isSome = true := by
        rw [uaa.ListUsers.index, uaa.index_isSome, w1, List.map_append, List.mem_append]
        by_cases hc : (uaa.ListUsers.index asciiToLower r.world u.UserID).isSome = true
        · left
          rw [uaa.ListUsers.index, uaa.index_isSome] at hc
          exact hc
        · right
          simp only [List.map_map, List.mem_map, List.mem_filter, Function.comp]
          exact ⟨u, ⟨hu, by simpa using hc⟩, hlow u hu⟩
      simp [hk]
    dsimp only at l2 w2
    have l3 : r2.log.filterMap Call.created? = [] := by
      rw [l2, hnone]
      rfl
    have w3 : r2.world = r1.world := by
      rw [w2, hnone]
      exact List.append_nil _
    simp only [e1, e2, l3, w3, and_self]

end organization
